import Mathlib

/-!
# JEMRIS: trapezoidal gradient pulse and sequence tree

A shallow embedding of `src/src/TrapGradPulse.cpp` and `src/src/Sequence.cpp`.

The C++ `double` is embedded as an arbitrary linearly ordered field `α`
(exact arithmetic); `sqrt` is passed in as a function, so that every
definition is computable and can be run over `ℚ`, while the theorems about
the solver are stated over `ℝ` with `Real.sqrt`.  `fabs` is `|·|`.
Member variables keep their C++ names.

Lines 100-186 of `TrapGradPulse.cpp` are embedded a second time in binary64 (`F64`,
`SetTrapezoid64`, `SetShape64`), for the inputs on which rounding, and not the exact formula,
decides what the fixed-duration mode returns.
-/

namespace Jemris

/-- One entry of a `TPOI` container: the pair built by `TPOI::set(time, phase)`. -/
structure TPOISet (α : Type) where
  dtime : α
  dphase : α
deriving DecidableEq

/-- The three preparation modes of `Module::Prepare`. -/
inductive PrepareMode where
  | PREP_INIT
  | PREP_VERBOSE
  | PREP_UPDATE
deriving DecidableEq

/-- The member variables of a `TrapGradPulse` that the code of
`TrapGradPulse.cpp` reads or writes (its own and the inherited
`m_name`, `m_area`, `m_max_ampl`, `m_slew_rate`, `m_duration`, `m_tpoi`, `m_adc`,
`m_phase_lock`). -/
structure TrapGradPulse (α : Type) where
  m_name : String
  m_area : α
  m_max_ampl : α
  m_slew_rate : α
  m_duration : α
  m_flat_top_area : α
  m_flat_top_time : α
  m_asym_sr : α
  m_has_flat_top_time : Bool
  m_has_flat_top_area : Bool
  m_has_duration : Bool
  m_amplitude : α
  m_ramp_up_time : α
  m_time_to_ramp_dn : α
  m_ramp_dn_time : α
  m_slope_up : α
  m_slope_dn : α
  m_tpoi : List (TPOISet α)
  m_adc : Nat
  m_phase_lock : Bool

/-- What a `bool` method of a pulse leaves behind: the returned value, the pulse after
the call, and the lines written to `cout`. -/
structure Outcome (α : Type) where
  ok : Bool
  pulse : TrapGradPulse α
  cout : List String

/-! ## Binary64 arithmetic

The arithmetic of the C++ type `double` as IEEE 754 binary64 prescribes it: every operation
(`+`, `-`, `*`, `/`, `sqrt`) returns the exact result rounded to the nearest double, ties to
the even mantissa, with subnormal numbers, overflow to infinity and NaN. Each operation of
the source is rounded on its own (no extended precision, no fused multiply-add). The sign of
a zero is not kept, so a division by zero takes its sign from the dividend. -/

/-- A value of the C++ type `double` (IEEE 754 binary64): the finite number `m * 2^e`,
an infinity, or NaN. Finite values are kept with `m` odd, or `m = 0` and `e = 0`; the sign of a
zero is not kept. -/
inductive F64 where
  | fin (m : Int) (e : Int)
  | inf (neg : Bool)
  | nan
deriving DecidableEq

namespace F64

/-- The number of binary digits of `n`, counted in at most `fuel` halvings. -/
def bitsAux : Nat → Nat → Nat
  | 0, _ => 0
  | fuel + 1, n => if n = 0 then 0 else bitsAux fuel (n / 2) + 1

/-- The number of binary digits of `n` (0 for 0): `2^(bits n - 1) <= n < 2^(bits n)`. -/
def bits (n : Nat) : Nat := bitsAux n n

/-- The number of factors of two of `n`, counted in at most `fuel` halvings. -/
def twosAux : Nat → Nat → Nat
  | 0, _ => 0
  | fuel + 1, n => if n % 2 = 1 then 0 else twosAux fuel (n / 2) + 1

/-- The number of factors of two of `n` (0 for 0). -/
def twos (n : Nat) : Nat := if n = 0 then 0 else twosAux n n

/-- The integer square root digit by digit: `acc` grows by `2^i` for `i = k-1, .., 0` as long as
its square stays at most `N`. -/
def isqrtAux (N : Nat) : Nat → Nat → Nat
  | 0, acc => acc
  | k + 1, acc =>
    if (acc + 2 ^ k) * (acc + 2 ^ k) ≤ N then isqrtAux N k (acc + 2 ^ k) else isqrtAux N k acc

/-- The integer square root: the greatest `s` with `s * s <= N`. -/
def isqrt (N : Nat) : Nat := isqrtAux N (bits N / 2 + 1) 0

/-- The finite value `m * 2^e` with the factors of two moved from `m` into `e`. -/
def norm (m : Int) (e : Int) : F64 :=
  if m = 0 then fin 0 0
  else fin (m / (2 ^ twos m.natAbs : Nat)) (e + (twos m.natAbs : Nat))

/-- Rounding to binary64: the double nearest to `(-1)^neg * M * 2^E`, ties to the even
mantissa; 53 bits of mantissa, least exponent `-1074` (subnormal numbers), infinity from
`2^1024` on. -/
def round (neg : Bool) (M : Nat) (E : Int) : F64 :=
  if M = 0 then fin 0 0
  else
    let n : Int := (bits M : Nat)
    let L : Int := max (E + n - 53) (-1074)
    let s : Nat := (L - E).toNat
    let q : Nat := M / 2 ^ s
    let r : Nat := M % 2 ^ s
    let q1 : Nat :=
      if L ≤ E then M
      else if 2 ^ (s - 1) < r ∨ (r = 2 ^ (s - 1) ∧ q % 2 = 1) then q + 1 else q
    let e1 : Int := if L ≤ E then E else L
    if q1 = 0 then fin 0 0
    else if 1024 < ((bits q1 : Nat) : Int) + e1 then inf neg
    else norm (if neg then -(q1 : Int) else (q1 : Int)) e1

/-- The conversion of an integer to `double`. -/
def ofInt (n : Int) : F64 := round (decide (n < 0)) n.natAbs 0

/-- The function `fabs`. -/
def fabs : F64 → F64
  | fin m e => fin (|m|) e
  | inf _ => inf false
  | nan => nan

/-- Unary minus. -/
def neg : F64 → F64
  | fin m e => fin (-m) e
  | inf n => inf (!n)
  | nan => nan

/-- The sum of two doubles. -/
def add : F64 → F64 → F64
  | fin m1 e1, fin m2 e2 =>
    let e := min e1 e2
    let M : Int := m1 * 2 ^ (e1 - e).toNat + m2 * 2 ^ (e2 - e).toNat
    round (decide (M < 0)) M.natAbs e
  | fin _ _, inf n => inf n
  | inf n, fin _ _ => inf n
  | inf n1, inf n2 => if n1 = n2 then inf n1 else nan
  | _, _ => nan

/-- The difference of two doubles. -/
def sub (a b : F64) : F64 := add a (neg b)

/-- The product of two doubles. -/
def mul : F64 → F64 → F64
  | fin m1 e1, fin m2 e2 => round (decide (m1 * m2 < 0)) (m1 * m2).natAbs (e1 + e2)
  | fin m _, inf n => if m = 0 then nan else inf (xor (decide (m < 0)) n)
  | inf n, fin m _ => if m = 0 then nan else inf (xor (decide (m < 0)) n)
  | inf n1, inf n2 => inf (xor n1 n2)
  | _, _ => nan

/-- The quotient of two doubles. The exact quotient is cut after more than 70 bits and a
sticky bit records a remainder, which leaves the rounding to 53 bits unchanged. A zero divisor
is taken as `+0`. -/
def div : F64 → F64 → F64
  | fin m1 e1, fin m2 e2 =>
    if m2 = 0 then (if m1 = 0 then nan else inf (decide (m1 < 0)))
    else
      let Q : Nat := m1.natAbs * 2 ^ 128 / m2.natAbs
      let st : Nat := if m1.natAbs * 2 ^ 128 % m2.natAbs = 0 then 0 else 1
      round (xor (decide (m1 < 0)) (decide (m2 < 0))) (2 * Q + st) (e1 - e2 - 129)
  | fin _ _, inf _ => fin 0 0
  | inf n, fin m _ => inf (xor n (decide (m < 0)))
  | _, _ => nan

/-- The function `sqrt`: NaN on a negative argument, otherwise the correctly rounded root,
from the integer square root of the scaled mantissa and a sticky bit. -/
def sqrt : F64 → F64
  | fin m e =>
    if m < 0 then nan
    else
      let par : Int := e % 2
      let N : Nat := m.natAbs * 2 ^ (128 + par.toNat)
      let S : Nat := isqrt N
      let st : Nat := if S * S = N then 0 else 1
      round false (2 * S + st) ((e - par - 128) / 2 - 1)
  | inf false => inf false
  | _ => nan

/-- The comparison `a < b` of two doubles (false when one of them is NaN). -/
def lt : F64 → F64 → Bool
  | fin m1 e1, fin m2 e2 =>
    decide (m1 * 2 ^ (e1 - min e1 e2).toNat < m2 * 2 ^ (e2 - min e1 e2).toNat)
  | fin _ _, inf n => !n
  | inf n, fin _ _ => n
  | inf n1, inf n2 => n1 && !n2
  | _, _ => false

/-- The comparison `a == b` of two doubles (false when one of them is NaN). -/
def eq : F64 → F64 → Bool
  | fin m1 e1, fin m2 e2 => decide (m1 = m2 ∧ e1 = e2)
  | inf n1, inf n2 => decide (n1 = n2)
  | _, _ => false

/-- The comparison `a <= b` of two doubles (false when one of them is NaN). -/
def le (a b : F64) : Bool := lt a b || eq a b

end F64

namespace TrapGradPulse

variable {α : Type} [LinearOrderedField α]

/-- Modelled from the spec: `SetDuration` (declared in the absent `Module.h`) stores
the duration of the pulse. -/
def SetDuration (p : TrapGradPulse α) (val : α) : TrapGradPulse α :=
  { p with m_duration := val }

/-- Modelled from the spec: `GetDuration` (declared in the absent `Module.h`) reads
the stored duration. -/
def GetDuration (p : TrapGradPulse α) : α := p.m_duration

/-- Modelled from the spec: `SetArea` (declared in the absent headers) stores the
target area ("recompute area"). -/
def SetArea (p : TrapGradPulse α) (val : α) : TrapGradPulse α :=
  { p with m_area := val }

/-- Modelled from the spec: `GetNADC` (declared in the absent `Pulse.h`) is the number
of ADCs of the pulse. -/
def GetNADC (p : TrapGradPulse α) : Nat := p.m_adc

/-- The method `TrapGradPulse::SetTrapezoid` (lines 145-186): the shortest-time solve. -/
def SetTrapezoid (sqrt : α → α) (p : TrapGradPulse α) : TrapGradPulse α :=
  if p.m_area = 0 then
    SetDuration
      { p with m_ramp_up_time := 0, m_flat_top_time := 0, m_ramp_dn_time := 0,
               m_slope_up := 0, m_slope_dn := 0, m_amplitude := 0 } 0
  else
    let dAbsArea := |p.m_area|
    let dSign := p.m_area / dAbsArea
    let Gmax := p.m_max_ampl
    let slope_up0 := dSign * p.m_slew_rate
    let slope_dn0 := -1 * dSign * p.m_slew_rate
    let slope_up := if p.m_asym_sr > 0 then slope_up0 * p.m_asym_sr else slope_up0
    let slope_dn := if p.m_asym_sr < 0 then slope_dn0 * |p.m_asym_sr| else slope_dn0
    let dC := 1 / |2 * slope_up| + 1 / |2 * slope_dn|
    let dFlatTopArea := if dAbsArea ≤ Gmax * Gmax * dC then 0
      else dSign * (dAbsArea - Gmax * Gmax * dC)
    let amplitude := if dAbsArea ≤ Gmax * Gmax * dC then dSign * sqrt (dAbsArea / dC)
      else dSign * Gmax
    let ramp_up_time := |amplitude / slope_up|
    let ramp_dn_time := |amplitude / slope_dn|
    let flat_top_time := |dFlatTopArea / amplitude|
    SetDuration
      { p with m_slope_up := slope_up, m_slope_dn := slope_dn, m_amplitude := amplitude,
               m_ramp_up_time := ramp_up_time, m_ramp_dn_time := ramp_dn_time,
               m_flat_top_time := flat_top_time,
               m_time_to_ramp_dn := ramp_up_time + flat_top_time }
      (ramp_up_time + flat_top_time + ramp_dn_time)

/-- The method `TrapGradPulse::SetShape` (lines 100-142). The early `return false` is taken
only when `requested < min_possible && verbose` holds, as in the source. Arithmetic is exact
here; where rounding changes the outcome of line 126 (a rounded argument of `sqrt` below
zero, cancellation in `requested - sqrt(..)`), `SetShape64` is the same method in binary64. -/
def SetShape (sqrt : α → α) (verbose : Bool) (p : TrapGradPulse α) : Outcome α :=
  let p1 :=
    if p.m_has_flat_top_area then
      let dC := 2 / |2 * p.m_slew_rate|
      SetArea p (p.m_flat_top_area
        * (1 + p.m_max_ampl * p.m_max_ampl * dC / |p.m_flat_top_area|))
    else p
  if p1.m_has_duration ∨ p1.m_has_flat_top_time then
    let requested := if p1.m_has_duration then p1.m_duration else p1.m_flat_top_time
    let p2 := SetTrapezoid sqrt p1
    let min_possible := if p2.m_has_duration then p2.m_duration else p2.m_flat_top_time
    if requested < min_possible ∧ verbose = true then
      { ok := false, pulse := p2,
        cout := [p2.m_name ++ "::SetShape() warning: requested "
          ++ (if p2.m_has_duration then "duration" else "FlatTopTime")
          ++ " too short for this TrapezGradPulse.\n"] }
    else
      let dGmax := p2.m_max_ampl
      let p3 :=
        if p2.m_has_duration then
          let dC := 1 / |2 * p2.m_slope_up| + 1 / |2 * p2.m_slope_dn|
          { p2 with m_max_ampl :=
              (requested - sqrt (requested * requested - 4 * |p2.m_area| * dC)) / (2 * dC) }
        else
          let max_ampl := |p2.m_flat_top_area / requested|
          let dC := 2 / |2 * p2.m_slew_rate|
          SetArea { p2 with m_max_ampl := max_ampl }
            (p2.m_flat_top_area * (1 + max_ampl * max_ampl * dC / |p2.m_flat_top_area|))
      let p4 := SetTrapezoid sqrt p3
      { ok := true, pulse := { p4 with m_max_ampl := dGmax }, cout := [] }
  else
    { ok := true, pulse := SetTrapezoid sqrt p1, cout := [] }

/-- Modelled from the spec: `TPOI::Reset` (class `TPOI` is absent) empties the TPOI set. -/
def tpoiReset (p : TrapGradPulse α) : TrapGradPulse α :=
  { p with m_tpoi := [] }

/-- Modelled from the spec: `m_tpoi + TPOI::set(time, phase)` (class `TPOI` is absent)
inserts one more point into the TPOI set, after the points already there. -/
def tpoiAdd (p : TrapGradPulse α) (time phase : α) : TrapGradPulse α :=
  { p with m_tpoi := p.m_tpoi ++ [{ dtime := time, dphase := phase }] }

/-- The loop of lines 223-225: one TPOI per ADC, for `i = 0, 1, ..` as listed. The
counters `i + 1` and `GetNADC() + 1` are converted to `double`. -/
def addADCs (PhaseLock : α) (p : TrapGradPulse α) : List Nat → TrapGradPulse α
  | [] => p
  | i :: is =>
    addADCs PhaseLock
      (tpoiAdd p
        (p.m_ramp_up_time + ((i + 1 : Nat) : α) * p.m_flat_top_time / ((GetNADC p + 1 : Nat) : α))
        (if p.m_phase_lock then PhaseLock else 0))
      is

/-- The method `TrapGradPulse::SetTPOIs` (lines 213-232). `Pulse_SetTPOIs` is the
base-class method (absent), `TIME_ERR_TOL` the absent constant and `PhaseLock` the
value of `World::instance()->PhaseLock`. -/
def SetTPOIs (TIME_ERR_TOL PhaseLock : α) (Pulse_SetTPOIs : TrapGradPulse α → TrapGradPulse α)
    (p : TrapGradPulse α) : TrapGradPulse α :=
  let p1 :=
    if ¬ p.m_has_flat_top_time then Pulse_SetTPOIs p
    else
      let q0 := tpoiReset p
      let q1 := tpoiAdd q0 TIME_ERR_TOL (-1)
      let q2 := tpoiAdd q1 (GetDuration q1 - TIME_ERR_TOL) (-1)
      addADCs PhaseLock q2 (List.range (GetNADC q2))
  let p2 := tpoiAdd p1 p1.m_ramp_up_time (-1)
  tpoiAdd p2 (p2.m_ramp_up_time + p2.m_flat_top_time) (-1)

/-- Lines 89-95 of `TrapGradPulse::Prepare`: the base-class `GradPulse::Prepare` (absent,
a parameter), then `SetShape` unless the base class failed, then the warning. -/
def prepareTail (sqrt : α → α) (GradPulse_Prepare : PrepareMode → TrapGradPulse α → Outcome α)
    (mode : PrepareMode) (p : TrapGradPulse α) : Outcome α :=
  let r1 := GradPulse_Prepare mode p
  let r2 : Outcome α :=
    if r1.ok then
      let r := SetShape sqrt (decide (mode = PrepareMode.PREP_VERBOSE)) r1.pulse
      { ok := r.ok, pulse := r.pulse, cout := r1.cout ++ r.cout }
    else r1
  if r2.ok = false ∧ mode = PrepareMode.PREP_VERBOSE then
    { r2 with cout := r2.cout ++ ["\n warning in Prepare(1) of TRAPGRADPULSE " ++ r2.pulse.m_name
        ++ "\n"] }
  else r2

/-- The method `TrapGradPulse::Prepare` (lines 50-96). `HasDOMattribute` and
`GradPulse_Prepare` are the absent collaborators; the `ATTRIBUTE` registrations of lines
52-58 change no member variable and are left out. -/
def Prepare (sqrt : α → α) (HasDOMattribute : String → Bool)
    (GradPulse_Prepare : PrepareMode → TrapGradPulse α → Outcome α)
    (mode : PrepareMode) (p : TrapGradPulse α) : Outcome α :=
  if mode ≠ PrepareMode.PREP_UPDATE then
    let p1 := { p with m_has_flat_top_time := HasDOMattribute ("FlatTopTime"),
                       m_has_flat_top_area := HasDOMattribute ("FlatTopArea"),
                       m_has_duration := HasDOMattribute ("Duration") }
    if p1.m_has_duration ∧ p1.m_has_flat_top_time then
      { ok := false, pulse := p1,
        cout := if mode = PrepareMode.PREP_VERBOSE then
          [p1.m_name ++ "::Prepare() error: set only one of "
            ++ "'Duration' and 'FlatTopTime' for a TrapGradPulse\n"] else [] }
    else if HasDOMattribute ("Area") ∧ p1.m_has_flat_top_area then
      { ok := false, pulse := p1,
        cout := if mode = PrepareMode.PREP_VERBOSE then
          [p1.m_name ++ "::Prepare() error: set only one of "
            ++ "'Area' and 'FlatTopArea' for a TrapGradPulse\n"] else [] }
    else if p1.m_has_flat_top_time ∧ ¬ p1.m_has_flat_top_area then
      { ok := false, pulse := p1,
        cout := if mode = PrepareMode.PREP_VERBOSE then
          [p1.m_name ++ "::Prepare() error: 'FlatTopTime' needs "
            ++ "also 'FlatTopArea' for a TrapGradPulse\n"] else [] }
    else prepareTail sqrt GradPulse_Prepare mode p1
  else prepareTail sqrt GradPulse_Prepare mode p

/-- The positive factor of the ramp-up slope: `m_slew_rate`, scaled by a positive `m_asym_sr`. -/
def upRate (p : TrapGradPulse α) : α :=
  if p.m_asym_sr > 0 then p.m_slew_rate * p.m_asym_sr else p.m_slew_rate

/-- The positive factor of the ramp-down slope: `m_slew_rate`, scaled by `|m_asym_sr|` when
`m_asym_sr` is negative. -/
def dnRate (p : TrapGradPulse α) : α :=
  if p.m_asym_sr < 0 then p.m_slew_rate * |p.m_asym_sr| else p.m_slew_rate

/-- The combined ramp-time constant `dC` of `SetTrapezoid`, written with the positive rates. -/
def rampConst (p : TrapGradPulse α) : α :=
  1 / (2 * upRate p) + 1 / (2 * dnRate p)

/-- The magnitude of the amplitude chosen by `SetTrapezoid`. -/
def peak (sqrt : α → α) (p : TrapGradPulse α) : α :=
  if |p.m_area| ≤ p.m_max_ampl * p.m_max_ampl * rampConst p then sqrt (|p.m_area| / rampConst p)
  else p.m_max_ampl

/-- The flat-top time chosen by `SetTrapezoid`. -/
def plateau (p : TrapGradPulse α) : α :=
  if |p.m_area| ≤ p.m_max_ampl * p.m_max_ampl * rampConst p then 0
  else (|p.m_area| - p.m_max_ampl * p.m_max_ampl * rampConst p) / p.m_max_ampl

/-- The pulse of the end-to-end scenario of the specification: area 10, maximum amplitude 2,
slew rate 100, symmetric ramps, nothing solved yet. -/
def scenarioPulse (α : Type) [LinearOrderedField α] : TrapGradPulse α :=
  { m_name := "P", m_area := 10, m_max_ampl := 2, m_slew_rate := 100, m_duration := 0,
    m_flat_top_area := 0, m_flat_top_time := 0, m_asym_sr := 0,
    m_has_flat_top_time := false, m_has_flat_top_area := false, m_has_duration := false,
    m_amplitude := 0, m_ramp_up_time := 0, m_time_to_ramp_dn := 0, m_ramp_dn_time := 0,
    m_slope_up := 0, m_slope_dn := 0, m_tpoi := [], m_adc := 0, m_phase_lock := false }

/-- The time integral of the trapezoid held by the pulse: the two ramps (triangles) and the
flat top (rectangle), signed by the amplitude. -/
def sweptArea (p : TrapGradPulse α) : α :=
  1 / 2 * p.m_amplitude * p.m_ramp_up_time + p.m_amplitude * p.m_flat_top_time
    + 1 / 2 * p.m_amplitude * p.m_ramp_dn_time

/-- The scenario pulse with a requested duration of 6, above its shortest duration 251/50. -/
def fixedDurationPulse (α : Type) [LinearOrderedField α] : TrapGradPulse α :=
  { scenarioPulse α with m_has_duration := true, m_duration := 6 }

/-- The scenario pulse with a requested duration of 1, below its shortest duration 251/50. -/
def tooShortPulse (α : Type) [LinearOrderedField α] : TrapGradPulse α :=
  { scenarioPulse α with m_has_duration := true, m_duration := 1 }

/-- A pulse with FlatTopArea 1 and FlatTopTime 2 declared, maximum amplitude 1, slew rate 1 and
asymmetry ratio 2 (the ramp up is twice as steep as the ramp down). -/
def asymFlatTopPulse (α : Type) [LinearOrderedField α] : TrapGradPulse α :=
  { m_name := "P", m_area := 0, m_max_ampl := 1, m_slew_rate := 1, m_duration := 0,
    m_flat_top_area := 1, m_flat_top_time := 2, m_asym_sr := 2,
    m_has_flat_top_time := true, m_has_flat_top_area := true, m_has_duration := false,
    m_amplitude := 0, m_ramp_up_time := 0, m_time_to_ramp_dn := 0, m_ramp_dn_time := 0,
    m_slope_up := 0, m_slope_dn := 0, m_tpoi := [], m_adc := 0, m_phase_lock := false }

/-- The time of the `i`-th ADC on the flat top, as computed at lines 224-225. -/
def adcTime (p : TrapGradPulse α) (i : Nat) : α :=
  p.m_ramp_up_time + ((i + 1 : Nat) : α) * p.m_flat_top_time / ((GetNADC p + 1 : Nat) : α)

/-- The phase given to the ADCs at line 225. -/
def adcPhase (PhaseLock : α) (p : TrapGradPulse α) : α :=
  if p.m_phase_lock then PhaseLock else 0

/-- A solved pulse with FlatTopTime declared: ramps of 1, a flat top of 4, three ADCs and a stale
TPOI left from an earlier preparation. -/
def flatTopPulse (α : Type) [LinearOrderedField α] : TrapGradPulse α :=
  { m_name := "P", m_area := 5, m_max_ampl := 1, m_slew_rate := 1, m_duration := 6,
    m_flat_top_area := 4, m_flat_top_time := 4, m_asym_sr := 0,
    m_has_flat_top_time := true, m_has_flat_top_area := true, m_has_duration := false,
    m_amplitude := 1, m_ramp_up_time := 1, m_time_to_ramp_dn := 5, m_ramp_dn_time := 1,
    m_slope_up := 1, m_slope_dn := -1, m_tpoi := [{ dtime := 3, dphase := 0 }], m_adc := 3,
    m_phase_lock := false }

/-- A pulse with FlatTopArea 1 and FlatTopTime 3/4 declared, maximum amplitude 1, slew rate 1
and asymmetry ratio 1/2 (the ramp up is half as steep as the ramp down). -/
def slowRampFlatTopPulse (α : Type) [LinearOrderedField α] : TrapGradPulse α :=
  { m_name := "P", m_area := 0, m_max_ampl := 1, m_slew_rate := 1, m_duration := 0,
    m_flat_top_area := 1, m_flat_top_time := 3 / 4, m_asym_sr := 1 / 2,
    m_has_flat_top_time := true, m_has_flat_top_area := true, m_has_duration := false,
    m_amplitude := 0, m_ramp_up_time := 0, m_time_to_ramp_dn := 0, m_ramp_dn_time := 0,
    m_slope_up := 0, m_slope_dn := 0, m_tpoi := [], m_adc := 0, m_phase_lock := false }

/-- The scenario pulse with asymmetry ratio 2. -/
def steepRampPulse (α : Type) [LinearOrderedField α] : TrapGradPulse α :=
  { scenarioPulse α with m_asym_sr := 2 }

/-- The scenario pulse after its shortest-time solve, with the area then set to zero. -/
def solvedThenZeroPulse (α : Type) [LinearOrderedField α] (sqrt : α → α) : TrapGradPulse α :=
  SetArea (SetTrapezoid sqrt (scenarioPulse α)) 0

/-- The scenario pulse with area 1/25, which equals `maxAmplitude^2 * dC = 4 * 1/100`. -/
def boundaryPulse (α : Type) [LinearOrderedField α] : TrapGradPulse α :=
  { scenarioPulse α with m_area := 1 / 25 }

/-- The method `TrapGradPulse::SetTrapezoid` (lines 145-186) with every operation carried out
in binary64, in the order in which the C++ expressions associate. -/
def SetTrapezoid64 (p : TrapGradPulse F64) : TrapGradPulse F64 :=
  if F64.eq p.m_area (F64.fin 0 0) = true then
    SetDuration
      { p with m_ramp_up_time := F64.fin 0 0, m_flat_top_time := F64.fin 0 0,
               m_ramp_dn_time := F64.fin 0 0, m_slope_up := F64.fin 0 0,
               m_slope_dn := F64.fin 0 0, m_amplitude := F64.fin 0 0 } (F64.fin 0 0)
  else
    let dAbsArea := F64.fabs p.m_area
    let dSign := F64.div p.m_area dAbsArea
    let Gmax := p.m_max_ampl
    let slope_up0 := F64.mul dSign p.m_slew_rate
    let slope_dn0 := F64.mul (F64.mul (F64.fin (-1) 0) dSign) p.m_slew_rate
    let slope_up :=
      if F64.lt (F64.fin 0 0) p.m_asym_sr = true then F64.mul slope_up0 p.m_asym_sr
      else slope_up0
    let slope_dn :=
      if F64.lt p.m_asym_sr (F64.fin 0 0) = true then F64.mul slope_dn0 (F64.fabs p.m_asym_sr)
      else slope_dn0
    let dC := F64.add (F64.div (F64.fin 1 0) (F64.fabs (F64.mul (F64.fin 1 1) slope_up)))
      (F64.div (F64.fin 1 0) (F64.fabs (F64.mul (F64.fin 1 1) slope_dn)))
    let triangle := F64.le dAbsArea (F64.mul (F64.mul Gmax Gmax) dC)
    let dFlatTopArea :=
      if triangle = true then F64.fin 0 0
      else F64.mul dSign (F64.sub dAbsArea (F64.mul (F64.mul Gmax Gmax) dC))
    let amplitude :=
      if triangle = true then F64.mul dSign (F64.sqrt (F64.div dAbsArea dC))
      else F64.mul dSign Gmax
    let ramp_up_time := F64.fabs (F64.div amplitude slope_up)
    let ramp_dn_time := F64.fabs (F64.div amplitude slope_dn)
    let flat_top_time := F64.fabs (F64.div dFlatTopArea amplitude)
    SetDuration
      { p with m_slope_up := slope_up, m_slope_dn := slope_dn, m_amplitude := amplitude,
               m_ramp_up_time := ramp_up_time, m_ramp_dn_time := ramp_dn_time,
               m_flat_top_time := flat_top_time,
               m_time_to_ramp_dn := F64.add ramp_up_time flat_top_time }
      (F64.add (F64.add ramp_up_time flat_top_time) ramp_dn_time)

/-- The area that `SetShape` sets for a declared FlatTopArea (lines 105 and 132), in binary64. -/
def flatTopTotalArea64 (p : TrapGradPulse F64) (dC : F64) : F64 :=
  F64.mul p.m_flat_top_area
    (F64.add (F64.fin 1 0)
      (F64.div (F64.mul (F64.mul p.m_max_ampl p.m_max_ampl) dC) (F64.fabs p.m_flat_top_area)))

/-- The `dC` of line 125 in binary64, from the slopes of the pulse. -/
def slopeConst64 (p : TrapGradPulse F64) : F64 :=
  F64.add (F64.div (F64.fin 1 0) (F64.fabs (F64.mul (F64.fin 1 1) p.m_slope_up)))
    (F64.div (F64.fin 1 0) (F64.fabs (F64.mul (F64.fin 1 1) p.m_slope_dn)))

/-- The argument of `sqrt` at line 126 in binary64:
`requested*requested - 4*fabs(m_area)*dC`. -/
def sqrtArgument64 (p : TrapGradPulse F64) (requested : F64) : F64 :=
  F64.sub (F64.mul requested requested)
    (F64.mul (F64.mul (F64.ofInt 4) (F64.fabs p.m_area)) (slopeConst64 p))

/-- The reduced amplitude limit of line 126 in binary64. -/
def reducedAmplitude64 (p : TrapGradPulse F64) (requested : F64) : F64 :=
  F64.div (F64.sub requested (F64.sqrt (sqrtArgument64 p requested)))
    (F64.mul (F64.fin 1 1) (slopeConst64 p))

/-- The method `TrapGradPulse::SetShape` (lines 100-142) with every operation carried out in
binary64. -/
def SetShape64 (verbose : Bool) (p : TrapGradPulse F64) : Outcome F64 :=
  let p1 :=
    if p.m_has_flat_top_area then
      SetArea p (flatTopTotalArea64 p
        (F64.div (F64.fin 1 1) (F64.fabs (F64.mul (F64.fin 1 1) p.m_slew_rate))))
    else p
  if p1.m_has_duration ∨ p1.m_has_flat_top_time then
    let requested := if p1.m_has_duration then p1.m_duration else p1.m_flat_top_time
    let p2 := SetTrapezoid64 p1
    let min_possible := if p2.m_has_duration then p2.m_duration else p2.m_flat_top_time
    if F64.lt requested min_possible = true ∧ verbose = true then
      { ok := false, pulse := p2,
        cout := [p2.m_name ++ "::SetShape() warning: requested "
          ++ (if p2.m_has_duration then "duration" else "FlatTopTime")
          ++ " too short for this TrapezGradPulse.\n"] }
    else
      let dGmax := p2.m_max_ampl
      let p3 :=
        if p2.m_has_duration then
          { p2 with m_max_ampl := reducedAmplitude64 p2 requested }
        else
          let p2a := { p2 with m_max_ampl := F64.fabs (F64.div p2.m_flat_top_area requested) }
          SetArea p2a (flatTopTotalArea64 p2a
            (F64.div (F64.fin 1 1) (F64.fabs (F64.mul (F64.fin 1 1) p2a.m_slew_rate))))
      let p4 := SetTrapezoid64 p3
      { ok := true, pulse := { p4 with m_max_ampl := dGmax }, cout := [] }
  else
    { ok := true, pulse := SetTrapezoid64 p1, cout := [] }

/-- A pulse with Duration declared and nothing solved yet, from its area, maximum amplitude,
slew rate and requested duration; symmetric ramps. -/
def durationPulse64 (area max_ampl slew_rate duration : F64) : TrapGradPulse F64 :=
  { m_name := "P", m_area := area, m_max_ampl := max_ampl, m_slew_rate := slew_rate,
    m_duration := duration, m_flat_top_area := F64.fin 0 0, m_flat_top_time := F64.fin 0 0,
    m_asym_sr := F64.fin 0 0, m_has_flat_top_time := false, m_has_flat_top_area := false,
    m_has_duration := true, m_amplitude := F64.fin 0 0, m_ramp_up_time := F64.fin 0 0,
    m_time_to_ramp_dn := F64.fin 0 0, m_ramp_dn_time := F64.fin 0 0,
    m_slope_up := F64.fin 0 0, m_slope_dn := F64.fin 0 0, m_tpoi := [], m_adc := 0,
    m_phase_lock := false }

/-- The doubles 0.1225, 10, 1 and 0.7: area, maximum amplitude, slew rate, requested
duration. The shortest-time solve takes exactly 0.7. -/
def edgePulse64 : TrapGradPulse F64 :=
  durationPulse64 (F64.fin 2206763817411543 (-54)) (F64.fin 5 1) (F64.fin 1 0)
    (F64.fin 3152519739159347 (-52))

/-- The doubles 101, 1000, 5 and 8.988882021697693: area, maximum amplitude, slew rate,
requested duration. The shortest-time solve takes exactly the requested duration. -/
def edgePulse101 : TrapGradPulse F64 :=
  durationPulse64 (F64.fin 101 0) (F64.fin 125 3) (F64.fin 5 0)
    (F64.fin 5060290715424385 (-49))

/-- The doubles 1e-17, 40, 200 and 2: area, maximum amplitude, slew rate, requested
duration. -/
def tinyAreaPulse64 : TrapGradPulse F64 :=
  durationPulse64 (F64.fin 6490371073168535 (-109)) (F64.fin 5 3) (F64.fin 25 3) (F64.fin 1 1)

/-- The doubles 1e-12, 40, 200 and 2: area, maximum amplitude, slew rate, requested
duration. -/
def smallAreaPulse64 : TrapGradPulse F64 :=
  durationPulse64 (F64.fin 4951760157141521 (-92)) (F64.fin 5 3) (F64.fin 25 3) (F64.fin 1 1)

end TrapGradPulse

/-! ## Sequence.cpp -/

/-- One assignment `seqdata(row, col) = val` to the sample matrix. -/
structure Cell (α : Type) where
  row : Nat
  col : Int
  val : α
deriving DecidableEq

/-- The sample matrix `NDData<double>& seqdata`, embedded as the list of the assignments made
to it, oldest first. -/
abbrev NDData (α : Type) := List (Cell α)

/-- The value held at `seqdata(row, col)`: that of the latest assignment to the cell, if any. -/
def NDData.read {α : Type} (seqdata : NDData α) (row : Nat) (col : Int) : Option α :=
  ((seqdata.reverse.find? (fun c => decide (c.row = row ∧ c.col = col))).map Cell.val)

/-- The columns assigned to in one row, in the order of the assignments. -/
def NDData.columns {α : Type} (seqdata : NDData α) (row : Nat) : List Int :=
  (seqdata.filter (fun c => decide (c.row = row))).map Cell.col

/-- An `AtomicSequence` as `Sequence.cpp` sees it: its identity (which keys the non-linear
gradient flag), `GetDuration()`, the TPOI set `m_tpoi` (so that `GetNumOfTPOIs()` is its size)
and `GetValue`, which depends on the non-linear gradient flag and on the time and yields the
five values written from row 2 on. -/
structure AtomicSequence (α : Type) where
  m_id : Nat
  m_duration : α
  m_tpoi : List (TPOISet α)
  GetValue : Bool → α → Fin 5 → α

/-- The sequence tree: a node of type `MOD_ATOM`, or a node of type `MOD_CONCAT` with the
number of iterations of `[begin(), end())` and the children in declaration order. -/
inductive Sequence (α : Type) where
  | atom (a : AtomicSequence α)
  | concat (reps : Nat) (children : List (Sequence α))

/-- What `CollectSeqData` works on: the sample matrix and the non-linear gradient flag of
every atomic sequence, by identity. -/
structure SeqState (α : Type) where
  seqdata : NDData α
  nonLinGrad : Nat → Bool

namespace Sequence

variable {α : Type} [LinearOrderedField α]

/-- Modelled from the spec: `GetNumOfTPOIs()` (declared in the absent headers) on an Atomic
block is the number of TPOIs in its set `m_tpoi`. -/
def atomNumOfTPOIs (a : AtomicSequence α) : Int := (a.m_tpoi.length : Int)

/-- The five assignments made by `GetValue(&seqdata(2, col), time)`: rows 2 to 6 of the column. -/
def valueCells (a : AtomicSequence α) (flag : Bool) (col : Int) (time : α) : List (Cell α) :=
  (List.finRange 5).map (fun k => { row := 2 + k.val, col := col, val := a.GetValue flag time k })

/-- The loop of lines 137-141 from index `i` on, over the TPOIs not yet visited. -/
def sampleLoop (a : AtomicSequence α) (flag : Bool) (t : α) (offset : Int) :
    List (TPOISet α) → Int → NDData α → NDData α
  | [], _, seqdata => seqdata
  | tp :: rest, i, seqdata =>
    sampleLoop a flag t offset rest (i + 1)
      (seqdata ++ [{ row := 0, col := offset + i + 1, val := tp.dtime + t },
                   { row := 1, col := offset + i + 1, val := tp.dphase }]
        ++ valueCells a flag (offset + i + 1) tp.dtime)

/-- The `MOD_ATOM` branch of `CollectSeqData` (lines 132-145). -/
def collectAtom (a : AtomicSequence α) (s : SeqState α) (t : α) (offset : Int) : SeqState α :=
  let rem := s.nonLinGrad a.m_id
  let s1 : SeqState α := { s with nonLinGrad := Function.update s.nonLinGrad a.m_id false }
  let s2 : SeqState α :=
    { s1 with seqdata := sampleLoop a (s1.nonLinGrad a.m_id) t offset a.m_tpoi 0 s1.seqdata }
  { s2 with nonLinGrad := Function.update s2.nonLinGrad a.m_id rem }

/-- The local variables of the `MOD_CONCAT` branch of `CollectSeqData` that change in its
loops: the state reached through `seqdata`, and the parameters `t` and `offset`, which the
method received by value. -/
structure Cursor (α : Type) where
  state : SeqState α
  t : α
  offset : Int

mutual

/-- The method `Sequence::CollectSeqData` (lines 112-147). `t` and `offset` are value
parameters: what a call does to them is not seen by its caller. -/
def CollectSeqData : Sequence α → SeqState α → α → Int → SeqState α
  | atom a, s, t, offset => collectAtom a s t offset
  | concat reps children, s, t, offset =>
    (Nat.iterate (collectChildren children) reps { state := s, t := t, offset := offset }).state

/-- The loop over the children (lines 121-128), for the children not yet visited: the call
on the child, then the advance of `t` and `offset` when the child is not of type
`MOD_CONCAT`. -/
def collectChildren : List (Sequence α) → Cursor α → Cursor α
  | [], c => c
  | child :: rest, c =>
    let state := CollectSeqData child c.state c.t c.offset
    collectChildren rest
      (match child with
       | atom a =>
         { state := state, t := c.t + a.m_duration, offset := c.offset + atomNumOfTPOIs a }
       | concat _ _ => { c with state := state })

end

/-- The loop of lines 173-174: one decrement for each TPOI with a negative phase. -/
def countLoop : List (TPOISet α) → Int → Int
  | [], iADC => iADC
  | tp :: rest, iADC => countLoop rest (if tp.dphase < 0 then iADC - 1 else iADC)

mutual

/-- The method `Sequence::GetNumOfADCs` (lines 150-182). Every node is of type `MOD_CONCAT`
or `MOD_ATOM`, so the final `return -1` is not reached. -/
def GetNumOfADCs : Sequence α → Int
  | atom a => countLoop a.m_tpoi (atomNumOfTPOIs a)
  | concat reps children => Nat.iterate (addChildrenADCs children) reps 0

/-- The loop over the children (lines 160-161), adding to `lADC`. -/
def addChildrenADCs : List (Sequence α) → Int → Int
  | [], lADC => lADC
  | child :: rest, lADC => addChildrenADCs rest (lADC + GetNumOfADCs child)

end

/-- The assignments made by the `MOD_ATOM` branch for one atomic sequence called with `t` and
`offset`: the sampling loop run on an empty record (the flag is false while it runs). -/
def atomCells (a : AtomicSequence α) (t : α) (offset : Int) : List (Cell α) :=
  sampleLoop a false t offset a.m_tpoi 0 []

/-- A nested block: duration 3 and two TPOIs, a marker at time 1 and an ADC at time 2. -/
def nestedAtom : AtomicSequence ℚ :=
  { m_id := 0, m_duration := 3,
    m_tpoi := [{ dtime := 1, dphase := -1 }, { dtime := 2, dphase := 0 }],
    GetValue := fun _ _ _ => 0 }

/-- A sibling block: duration 5 and one TPOI, an ADC at time 4 with phase 7. -/
def siblingAtom : AtomicSequence ℚ :=
  { m_id := 1, m_duration := 5, m_tpoi := [{ dtime := 4, dphase := 7 }],
    GetValue := fun _ _ _ => 0 }

/-- A Concatenation (one repetition) of a nested Concatenation (2 repetitions of
`nestedAtom`) followed by `siblingAtom`. -/
def nestedTree : Sequence ℚ :=
  concat 1 [concat 2 [atom nestedAtom], atom siblingAtom]

/-- What a run of `Sequence::Prepare` leaves behind: the returned `btag`, the program state,
and the record of the calls made to the children, in the order they were made: the index of
the child and the value its `Prepare` returned. -/
structure PrepareRun (σ : Type) where
  btag : Bool
  state : σ
  calls : List (Nat × Bool)

/-- The loop of lines 48-54, from child `i` on: the child's `Prepare` is called, then its
result is combined with `btag`. -/
def prepareChildren {σ : Type} (mode : PrepareMode) :
    List (PrepareMode → σ → Bool × σ) → Nat → PrepareRun σ → PrepareRun σ
  | [], _, r => r
  | child :: rest, i, r =>
    let res := child mode r.state
    prepareChildren mode rest (i + 1)
      { btag := res.1 && r.btag, state := res.2, calls := r.calls ++ [(i, res.1)] }

/-- The method `Sequence::Prepare` (lines 34-61) over an arbitrary program state `σ`. The
base-class `Module::Prepare`, `HideAttribute`, the virtual `Prepare` of each child, and
`cout <<` are the absent collaborators; `isTop` is `GetParent()==m_parameters`. The `ATTRIBUTE`
registrations and `DEBUG_PRINT` do not bear on the result and are left out. -/
def Prepare {σ : Type} (Module_Prepare : PrepareMode → σ → Bool × σ)
    (HideAttribute : String → σ → σ) (children : List (PrepareMode → σ → Bool × σ))
    (isTop : Bool) (name : String) (cout : String → σ → σ) (mode : PrepareMode) (s : σ) :
    PrepareRun σ :=
  let r0 := Module_Prepare mode s
  let s1 := if mode ≠ PrepareMode.PREP_UPDATE then HideAttribute ("Duration") r0.2 else r0.2
  let r := prepareChildren mode children 0 { btag := r0.1, state := s1, calls := [] }
  if isTop = true ∧ r.btag = false ∧ mode = PrepareMode.PREP_VERBOSE then
    { r with state := cout ("\n!!! warning in Prepare(1) of sequence " ++ name ++ "\n\n") r.state }
  else r

/-- The number of TPOIs of a list of Atomic blocks, `n_1 + ... + n_k`. -/
def totalTPOIs (as : List (AtomicSequence α)) : Nat :=
  (as.map (fun a => a.m_tpoi.length)).sum

/-- The duration of a list of Atomic blocks, `d_1 + ... + d_k`. -/
def totalDuration (as : List (AtomicSequence α)) : α :=
  (as.map (fun a => a.m_duration)).sum

/-- The assignments of one pass over Atomic children, the first of them called with `t` and
`offset`. -/
def passCells : List (AtomicSequence α) → α → Int → List (Cell α)
  | [], _, _ => []
  | a :: rest, t, offset =>
    atomCells a t offset ++ passCells rest (t + a.m_duration) (offset + atomNumOfTPOIs a)

/-- The assignments of `R` passes over Atomic children, the first pass starting at `t` and
`offset`. -/
def repCells (as : List (AtomicSequence α)) : Nat → α → Int → List (Cell α)
  | 0, _, _ => []
  | R + 1, t, offset =>
    passCells as t offset
      ++ repCells as R (t + totalDuration as) (offset + (totalTPOIs as : Int))

/-- The state in which the loop over the children starts: `Module::Prepare` has run and, unless
the mode is `PREP_UPDATE`, the attribute Duration has been hidden. -/
def stateAfterBase {σ : Type} (Module_Prepare : PrepareMode → σ → Bool × σ)
    (HideAttribute : String → σ → σ) (mode : PrepareMode) (s : σ) : σ :=
  if mode ≠ PrepareMode.PREP_UPDATE then HideAttribute ("Duration") (Module_Prepare mode s).2
  else (Module_Prepare mode s).2

/-- The state that child `k` is prepared in when, starting from `s0`, each of the children
`0, .., k-1` has been prepared exactly once, in declaration order (written from the words of
the claim, not from the loop). -/
def stateBeforeChild {σ : Type} (mode : PrepareMode)
    (children : List (PrepareMode → σ → Bool × σ)) (s0 : σ) (k : Nat) : σ :=
  (children.take k).foldl (fun st child => (child mode st).2) s0

/-- A child whose `Prepare` writes its number into the program state (a list of numbers) and
returns the given value. -/
def loggingChild (id : Nat) (result : Bool) : PrepareMode → List Nat → Bool × List Nat :=
  fun _ log => (result, log ++ [id])

end Sequence

namespace F64

theorem bitsAux_zero (fuel : Nat) : bitsAux fuel 0 = 0 := by
  cases fuel <;> simp [bitsAux]

theorem bitsAux_spec (fuel n : Nat) (h : n ≤ fuel) :
    n < 2 ^ bitsAux fuel n ∧ (n ≠ 0 → 2 ^ (bitsAux fuel n - 1) ≤ n) := by
  induction fuel generalizing n with
  | zero =>
    have : n = 0 := by omega
    subst this
    simp [bitsAux]
  | succ fuel ih =>
    by_cases hn : n = 0
    · subst hn
      simp [bitsAux]
    · have hle : n / 2 ≤ fuel := by omega
      obtain ⟨h1, h2⟩ := ih (n / 2) hle
      rw [bitsAux, if_neg hn]
      constructor
      · rw [pow_succ]
        omega
      · intro _
        rw [Nat.add_sub_cancel]
        by_cases h0 : n / 2 = 0
        · rw [h0, bitsAux_zero]
          simp
          omega
        · have h3 := h2 h0
          have : 2 ^ bitsAux fuel (n / 2) = 2 * 2 ^ (bitsAux fuel (n / 2) - 1) := by
            have hpos : 0 < bitsAux fuel (n / 2) := by
              rcases Nat.eq_zero_or_pos (bitsAux fuel (n / 2)) with hz | hz
              · rw [hz] at h1
                simp at h1
                omega
              · exact hz
            rw [← pow_succ']
            congr 1
            omega
          omega

/-- The function `bits` counts the binary digits: `2^(bits n - 1) <= n < 2^(bits n)`. -/
theorem bits_spec (n : Nat) : n < 2 ^ bits n ∧ (n ≠ 0 → 2 ^ (bits n - 1) ≤ n) :=
  bitsAux_spec n n (le_refl n)

theorem isqrtAux_spec (N k acc : Nat) (h1 : acc * acc ≤ N)
    (h2 : N < (acc + 2 ^ k) * (acc + 2 ^ k)) :
    isqrtAux N k acc * isqrtAux N k acc ≤ N ∧
    N < (isqrtAux N k acc + 1) * (isqrtAux N k acc + 1) := by
  induction k generalizing acc with
  | zero => simpa [isqrtAux] using And.intro h1 h2
  | succ k ih =>
    rw [isqrtAux]
    split_ifs with hc
    · apply ih _ hc
      have : acc + 2 ^ k + 2 ^ k = acc + 2 ^ (k + 1) := by rw [pow_succ]; omega
      rw [this]
      exact h2
    · exact ih acc h1 (not_le.mp hc)

/-- The function `isqrt` is the integer square root. -/
theorem isqrt_spec (N : Nat) :
    isqrt N * isqrt N ≤ N ∧ N < (isqrt N + 1) * (isqrt N + 1) := by
  apply isqrtAux_spec N _ 0 (Nat.zero_le _)
  have hb := (bits_spec N).1
  have hk : bits N ≤ 2 * (bits N / 2 + 1) := by omega
  calc N < 2 ^ bits N := hb
    _ ≤ 2 ^ (2 * (bits N / 2 + 1)) := Nat.pow_le_pow_right (by decide) hk
    _ = (0 + 2 ^ (bits N / 2 + 1)) * (0 + 2 ^ (bits N / 2 + 1)) := by
      rw [Nat.zero_add, two_mul, pow_add]

theorem isqrt_eq_sqrt (N : Nat) : isqrt N = Nat.sqrt N :=
  Nat.eq_sqrt.mpr (isqrt_spec N)

end F64

namespace TrapGradPulse

variable {α : Type} [LinearOrderedField α]

theorem upRate_pos (p : TrapGradPulse α) (hS : 0 < p.m_slew_rate) : 0 < upRate p := by
  unfold upRate
  split_ifs with h
  · exact mul_pos hS h
  · exact hS

theorem dnRate_pos (p : TrapGradPulse α) (hS : 0 < p.m_slew_rate) : 0 < dnRate p := by
  unfold dnRate
  split_ifs with h
  · exact mul_pos hS (abs_pos.mpr (ne_of_lt h))
  · exact hS

theorem rampConst_pos (p : TrapGradPulse α) (hS : 0 < p.m_slew_rate) : 0 < rampConst p := by
  have hu := upRate_pos p hS
  have hd := dnRate_pos p hS
  unfold rampConst
  positivity

theorem sign_sq (a : α) (ha : a ≠ 0) : a / |a| * (a / |a|) = 1 := by
  have h : |a| ≠ 0 := abs_ne_zero.mpr ha
  field_simp

theorem abs_sign (a : α) (ha : a ≠ 0) : abs (a / abs a) = 1 := by
  rw [abs_div, abs_abs]
  exact div_self (abs_ne_zero.mpr ha)

theorem sign_mul_abs (a : α) (ha : a ≠ 0) : a / |a| * |a| = a := by
  have h : |a| ≠ 0 := abs_ne_zero.mpr ha
  field_simp

/-- The state left by `SetTrapezoid` on a non-zero area, in closed form. -/
theorem SetTrapezoid_of_ne (sqrt : α → α) (p : TrapGradPulse α) (hA : p.m_area ≠ 0)
    (hS : 0 < p.m_slew_rate) (hX : 0 ≤ peak sqrt p) (hG : 0 < p.m_max_ampl) :
    (SetTrapezoid sqrt p).m_slope_up = p.m_area / |p.m_area| * upRate p ∧
    (SetTrapezoid sqrt p).m_slope_dn = -(p.m_area / |p.m_area| * dnRate p) ∧
    (SetTrapezoid sqrt p).m_amplitude = p.m_area / |p.m_area| * peak sqrt p ∧
    (SetTrapezoid sqrt p).m_ramp_up_time = peak sqrt p / upRate p ∧
    (SetTrapezoid sqrt p).m_ramp_dn_time = peak sqrt p / dnRate p ∧
    (SetTrapezoid sqrt p).m_flat_top_time = plateau p ∧
    (SetTrapezoid sqrt p).m_duration
      = peak sqrt p / upRate p + plateau p + peak sqrt p / dnRate p := by
  have hs1 := abs_sign p.m_area hA
  have hu := upRate_pos p hS
  have hd := dnRate_pos p hS
  have e_up : (if p.m_asym_sr > 0 then p.m_area / |p.m_area| * p.m_slew_rate * p.m_asym_sr
      else p.m_area / |p.m_area| * p.m_slew_rate) = p.m_area / |p.m_area| * upRate p := by
    unfold upRate
    split_ifs <;> ring
  have e_dn : (if p.m_asym_sr < 0 then -1 * (p.m_area / |p.m_area|) * p.m_slew_rate * |p.m_asym_sr|
      else -1 * (p.m_area / |p.m_area|) * p.m_slew_rate) = -(p.m_area / |p.m_area| * dnRate p) := by
    unfold dnRate
    split_ifs <;> ring
  have a_up : |2 * (p.m_area / |p.m_area| * upRate p)| = 2 * upRate p := by
    rw [abs_mul, abs_mul, hs1, abs_of_pos hu, abs_two, one_mul]
  have a_dn : |2 * -(p.m_area / |p.m_area| * dnRate p)| = 2 * dnRate p := by
    rw [abs_mul, abs_neg, abs_mul, hs1, abs_of_pos hd, abs_two, one_mul]
  have r_up : ∀ x : α, 0 ≤ x →
      |p.m_area / |p.m_area| * x / (p.m_area / |p.m_area| * upRate p)| = x / upRate p := by
    intro x hx
    rw [abs_div, abs_mul, abs_mul, hs1, abs_of_pos hu, abs_of_nonneg hx, one_mul, one_mul]
  have r_dn : ∀ x : α, 0 ≤ x →
      |p.m_area / |p.m_area| * x / -(p.m_area / |p.m_area| * dnRate p)| = x / dnRate p := by
    intro x hx
    rw [abs_div, abs_neg, abs_mul, abs_mul, hs1, abs_of_pos hd, abs_of_nonneg hx, one_mul,
      one_mul]
  have e_c : 1 / (2 * upRate p) + 1 / (2 * dnRate p) = rampConst p := rfl
  simp only [SetTrapezoid, SetDuration, if_neg hA, e_up, e_dn, a_up, a_dn, e_c]
  by_cases hc : |p.m_area| ≤ p.m_max_ampl * p.m_max_ampl * rampConst p
  · have hp : peak sqrt p = sqrt (|p.m_area| / rampConst p) := by simp only [peak, if_pos hc]
    have hq : plateau p = 0 := by simp only [plateau, if_pos hc]
    rw [hp] at hX
    simp only [if_pos hc, hp, hq, r_up _ hX, r_dn _ hX, zero_div, abs_zero, and_self]
  · have hp : peak sqrt p = p.m_max_ampl := by simp only [peak, if_neg hc]
    have hq : plateau p
        = (|p.m_area| - p.m_max_ampl * p.m_max_ampl * rampConst p) / p.m_max_ampl := by
      simp only [plateau, if_neg hc]
    have hf : |p.m_area / |p.m_area| * (|p.m_area| - p.m_max_ampl * p.m_max_ampl * rampConst p)
        / (p.m_area / |p.m_area| * p.m_max_ampl)|
        = (|p.m_area| - p.m_max_ampl * p.m_max_ampl * rampConst p) / p.m_max_ampl := by
      rw [abs_div, abs_mul, abs_mul, hs1, abs_of_pos hG, one_mul, one_mul,
        abs_of_pos (sub_pos.mpr (not_le.mp hc))]
    simp only [if_neg hc, hp, hq, r_up _ hG.le, r_dn _ hG.le, hf, and_self]

theorem peak_nonneg (p : TrapGradPulse ℝ) (hG : 0 < p.m_max_ampl) : 0 ≤ peak Real.sqrt p := by
  unfold peak
  split_ifs
  · exact Real.sqrt_nonneg _
  · exact hG.le

/-- The ramps and the flat top of the shortest-time solve sweep `|m_area|`. -/
theorem peak_sweep (p : TrapGradPulse ℝ) (hG : 0 < p.m_max_ampl) (hS : 0 < p.m_slew_rate) :
    peak Real.sqrt p * peak Real.sqrt p * rampConst p + peak Real.sqrt p * plateau p
      = |p.m_area| := by
  have hC := rampConst_pos p hS
  unfold peak plateau
  split_ifs with hc
  · rw [Real.mul_self_sqrt (div_nonneg (abs_nonneg _) hC.le)]
    field_simp
  · field_simp

/-- The shape left by the shortest-time solve integrates to the target area. -/
theorem sweptArea_SetTrapezoid (p : TrapGradPulse ℝ) (hA : p.m_area ≠ 0)
    (hG : 0 < p.m_max_ampl) (hS : 0 < p.m_slew_rate) :
    sweptArea (SetTrapezoid Real.sqrt p) = p.m_area := by
  obtain ⟨-, -, h3, h4, h5, h6, -⟩ :=
    SetTrapezoid_of_ne Real.sqrt p hA hS (peak_nonneg p hG) hG
  have hu := upRate_pos p hS
  have hd := dnRate_pos p hS
  have hsw := peak_sweep p hG hS
  unfold sweptArea
  rw [h3, h4, h5, h6]
  have key : 1 / 2 * (p.m_area / |p.m_area| * peak Real.sqrt p) * (peak Real.sqrt p / upRate p)
      + p.m_area / |p.m_area| * peak Real.sqrt p * plateau p
      + 1 / 2 * (p.m_area / |p.m_area| * peak Real.sqrt p) * (peak Real.sqrt p / dnRate p)
      = p.m_area / |p.m_area| * (peak Real.sqrt p * peak Real.sqrt p * rampConst p
          + peak Real.sqrt p * plateau p) := by
    unfold rampConst
    field_simp
    ring
  rw [key, hsw, sign_mul_abs _ hA]

/-- C1. Area reconstruction: for a non-zero area, positive maximum amplitude and positive slew
rate (any asymmetry ratio), the shape computed by `SetTrapezoid` satisfies, over the reals,
`1/2*amplitude*rampUpTime + amplitude*flatTopTime + 1/2*amplitude*rampDnTime = area`. -/
theorem area_reconstruction (p : TrapGradPulse ℝ) (hA : p.m_area ≠ 0)
    (hG : 0 < p.m_max_ampl) (hS : 0 < p.m_slew_rate) :
    1 / 2 * (SetTrapezoid Real.sqrt p).m_amplitude * (SetTrapezoid Real.sqrt p).m_ramp_up_time
      + (SetTrapezoid Real.sqrt p).m_amplitude * (SetTrapezoid Real.sqrt p).m_flat_top_time
      + 1 / 2 * (SetTrapezoid Real.sqrt p).m_amplitude
          * (SetTrapezoid Real.sqrt p).m_ramp_dn_time
      = p.m_area :=
  sweptArea_SetTrapezoid p hA hG hS

/-- C1 at the scenario pulse (area 10, maximum amplitude 2, slew rate 100). -/
theorem area_reconstruction_witness :
    1 / 2 * (SetTrapezoid Real.sqrt (scenarioPulse ℝ)).m_amplitude
        * (SetTrapezoid Real.sqrt (scenarioPulse ℝ)).m_ramp_up_time
      + (SetTrapezoid Real.sqrt (scenarioPulse ℝ)).m_amplitude
        * (SetTrapezoid Real.sqrt (scenarioPulse ℝ)).m_flat_top_time
      + 1 / 2 * (SetTrapezoid Real.sqrt (scenarioPulse ℝ)).m_amplitude
          * (SetTrapezoid Real.sqrt (scenarioPulse ℝ)).m_ramp_dn_time
      = (scenarioPulse ℝ).m_area :=
  area_reconstruction (scenarioPulse ℝ) (by norm_num [scenarioPulse])
    (by norm_num [scenarioPulse]) (by norm_num [scenarioPulse])

/-- What `SetTrapezoid` does not touch. -/
theorem SetTrapezoid_frame (sqrt : α → α) (p : TrapGradPulse α) :
    (SetTrapezoid sqrt p).m_area = p.m_area ∧
    (SetTrapezoid sqrt p).m_max_ampl = p.m_max_ampl ∧
    (SetTrapezoid sqrt p).m_slew_rate = p.m_slew_rate ∧
    (SetTrapezoid sqrt p).m_asym_sr = p.m_asym_sr ∧
    (SetTrapezoid sqrt p).m_flat_top_area = p.m_flat_top_area ∧
    (SetTrapezoid sqrt p).m_has_duration = p.m_has_duration ∧
    (SetTrapezoid sqrt p).m_has_flat_top_time = p.m_has_flat_top_time ∧
    (SetTrapezoid sqrt p).m_has_flat_top_area = p.m_has_flat_top_area := by
  unfold SetTrapezoid SetDuration
  split_ifs <;> simp only [and_self]

/-- At or above the triangle boundary the solve takes the maximum amplitude. -/
theorem peak_of_le (p : TrapGradPulse ℝ) (hG : 0 < p.m_max_ampl) (hS : 0 < p.m_slew_rate)
    (h : p.m_max_ampl * p.m_max_ampl * rampConst p ≤ |p.m_area|) :
    peak Real.sqrt p = p.m_max_ampl ∧
    plateau p = (|p.m_area| - p.m_max_ampl * p.m_max_ampl * rampConst p) / p.m_max_ampl := by
  have hC := rampConst_pos p hS
  unfold peak plateau
  split_ifs with hc
  · have e : |p.m_area| = p.m_max_ampl * p.m_max_ampl * rampConst p := le_antisymm hc h
    rw [e, mul_div_assoc, div_self hC.ne', mul_one, Real.sqrt_mul_self hG.le]
    simp
  · exact ⟨rfl, rfl⟩

/-- The shortest possible duration is positive and its square is at least `4*|area|*dC`. -/
theorem min_duration_sq (p : TrapGradPulse ℝ) (hA : p.m_area ≠ 0) (hG : 0 < p.m_max_ampl)
    (hS : 0 < p.m_slew_rate) :
    0 < (SetTrapezoid Real.sqrt p).m_duration ∧
    4 * |p.m_area| * rampConst p
      ≤ (SetTrapezoid Real.sqrt p).m_duration * (SetTrapezoid Real.sqrt p).m_duration := by
  obtain ⟨-, -, -, -, -, -, h7⟩ := SetTrapezoid_of_ne Real.sqrt p hA hS (peak_nonneg p hG) hG
  have hu := upRate_pos p hS
  have hd := dnRate_pos p hS
  have hC := rampConst_pos p hS
  have ha : 0 < |p.m_area| := abs_pos.mpr hA
  have hT : (SetTrapezoid Real.sqrt p).m_duration
      = 2 * rampConst p * peak Real.sqrt p + plateau p := by
    rw [h7]
    unfold rampConst
    field_simp
    ring
  rw [hT]
  unfold peak plateau
  split_ifs with hc
  · have hx : 0 < Real.sqrt (|p.m_area| / rampConst p) := Real.sqrt_pos.mpr (div_pos ha hC)
    have hxx := Real.mul_self_sqrt (div_nonneg ha.le hC.le)
    constructor
    · positivity
    · have e : |p.m_area| = Real.sqrt (|p.m_area| / rampConst p)
          * Real.sqrt (|p.m_area| / rampConst p) * rampConst p := by
        rw [hxx]; field_simp
      nlinarith [e]
  · have hpos : 0 < |p.m_area| - p.m_max_ampl * p.m_max_ampl * rampConst p :=
      sub_pos.mpr (not_le.mp hc)
    constructor
    · positivity
    · have e : 2 * rampConst p * p.m_max_ampl
          + (|p.m_area| - p.m_max_ampl * p.m_max_ampl * rampConst p) / p.m_max_ampl
          = rampConst p * p.m_max_ampl + |p.m_area| / p.m_max_ampl := by
        field_simp; ring
      rw [e]
      have e2 : (rampConst p * p.m_max_ampl + |p.m_area| / p.m_max_ampl)
          * (rampConst p * p.m_max_ampl + |p.m_area| / p.m_max_ampl)
          - 4 * |p.m_area| * rampConst p
          = (rampConst p * p.m_max_ampl - |p.m_area| / p.m_max_ampl) ^ 2 := by
        field_simp; ring
      nlinarith [sq_nonneg (rampConst p * p.m_max_ampl - |p.m_area| / p.m_max_ampl)]

/-- The rates and the ramp constant depend on the slew rate and the asymmetry ratio only. -/
theorem rates_congr (p q : TrapGradPulse α) (h1 : q.m_slew_rate = p.m_slew_rate)
    (h2 : q.m_asym_sr = p.m_asym_sr) :
    upRate q = upRate p ∧ dnRate q = dnRate p ∧ rampConst q = rampConst p := by
  unfold rampConst upRate dnRate
  rw [h1, h2]
  exact ⟨rfl, rfl, rfl⟩

/-- The `dC` that `SetShape` computes from the slopes left by `SetTrapezoid`. -/
theorem slopes_rampConst (sqrt : α → α) (p : TrapGradPulse α) (hA : p.m_area ≠ 0)
    (hS : 0 < p.m_slew_rate) (hX : 0 ≤ peak sqrt p) (hG : 0 < p.m_max_ampl) :
    1 / |2 * (SetTrapezoid sqrt p).m_slope_up| + 1 / |2 * (SetTrapezoid sqrt p).m_slope_dn|
      = rampConst p := by
  obtain ⟨h1, h2, -⟩ := SetTrapezoid_of_ne sqrt p hA hS hX hG
  have hs1 := abs_sign p.m_area hA
  have hu := upRate_pos p hS
  have hd := dnRate_pos p hS
  rw [h1, h2, abs_mul, abs_mul, abs_mul, abs_neg, abs_mul, hs1, abs_of_pos hu, abs_of_pos hd,
    abs_two, one_mul, one_mul]
  rfl

/-- The reduced amplitude limit of the fixed-duration mode: the smaller root of
`dC*g^2 - T*g + a = 0`. -/
theorem reduced_ampl (T a C : ℝ) (hC : 0 < C) (ha : 0 < a) (hT : 0 < T)
    (hD : 4 * a * C ≤ T * T) :
    0 < (T - Real.sqrt (T * T - 4 * a * C)) / (2 * C) ∧
    C * ((T - Real.sqrt (T * T - 4 * a * C)) / (2 * C))
        * ((T - Real.sqrt (T * T - 4 * a * C)) / (2 * C))
      - T * ((T - Real.sqrt (T * T - 4 * a * C)) / (2 * C)) + a = 0 ∧
    (T - Real.sqrt (T * T - 4 * a * C)) / (2 * C)
        * ((T - Real.sqrt (T * T - 4 * a * C)) / (2 * C)) * C ≤ a := by
  have hr0 : 0 ≤ Real.sqrt (T * T - 4 * a * C) := Real.sqrt_nonneg _
  have hrr : Real.sqrt (T * T - 4 * a * C) * Real.sqrt (T * T - 4 * a * C)
      = T * T - 4 * a * C := Real.mul_self_sqrt (by linarith)
  have hlt : Real.sqrt (T * T - 4 * a * C) < T := by
    by_contra hcon
    push_neg at hcon
    nlinarith [mul_pos ha hC]
  generalize Real.sqrt (T * T - 4 * a * C) = r at hr0 hrr hlt
  have hg : 0 < (T - r) / (2 * C) := div_pos (by linarith) (by linarith)
  have hq : C * ((T - r) / (2 * C)) * ((T - r) / (2 * C)) - T * ((T - r) / (2 * C)) + a = 0 := by
    field_simp
    nlinarith
  refine ⟨hg, hq, ?_⟩
  have h2 : T - 2 * C * ((T - r) / (2 * C)) = r := by
    field_simp
  nlinarith [mul_nonneg hg.le hr0]

/-- The state left by `SetShape` in fixed-duration mode when the early return is not taken. -/
theorem SetShape_fixed_duration (sqrt : α → α) (verbose : Bool) (p : TrapGradPulse α)
    (hdur : p.m_has_duration = true) (hfa : p.m_has_flat_top_area = false)
    (hnot : ¬ (p.m_duration < (SetTrapezoid sqrt p).m_duration ∧ verbose = true)) :
    SetShape sqrt verbose p =
      { ok := true,
        pulse :=
          { SetTrapezoid sqrt
              { SetTrapezoid sqrt p with
                m_max_ampl := (p.m_duration - sqrt (p.m_duration * p.m_duration
                  - 4 * |(SetTrapezoid sqrt p).m_area|
                    * (1 / |2 * (SetTrapezoid sqrt p).m_slope_up|
                        + 1 / |2 * (SetTrapezoid sqrt p).m_slope_dn|)))
                  / (2 * (1 / |2 * (SetTrapezoid sqrt p).m_slope_up|
                        + 1 / |2 * (SetTrapezoid sqrt p).m_slope_dn|)) } with
            m_max_ampl := (SetTrapezoid sqrt p).m_max_ampl },
        cout := [] } := by
  have hf := (SetTrapezoid_frame sqrt p).2.2.2.2.2.1
  rw [hdur] at hf
  simp only [SetShape, hfa, hdur, hf, Bool.false_eq_true, if_false, if_true, true_or, hnot]

/-- The fixed-duration mode in exact arithmetic (the reals, not binary64; for binary64 see
`fixed_duration_binary64_not_reproduced`): with Duration set and FlatTopArea not set, a non-zero area, positive maximum amplitude and slew rate, any asymmetry
ratio, and a requested duration that is at least the duration of the shortest-time solve,
`SetShape` returns true (verbose or not) and leaves a pulse whose total duration
`rampUpTime + flatTopTime + rampDnTime` equals the requested duration exactly, while the shape
still integrates to the same area. -/
theorem fixed_duration_reproduced (p : TrapGradPulse ℝ) (verbose : Bool) (hA : p.m_area ≠ 0)
    (hG : 0 < p.m_max_ampl) (hS : 0 < p.m_slew_rate) (hdur : p.m_has_duration = true)
    (hfa : p.m_has_flat_top_area = false)
    (hreq : (SetTrapezoid Real.sqrt p).m_duration ≤ p.m_duration) :
    (SetShape Real.sqrt verbose p).ok = true ∧
    (SetShape Real.sqrt verbose p).pulse.m_ramp_up_time
      + (SetShape Real.sqrt verbose p).pulse.m_flat_top_time
      + (SetShape Real.sqrt verbose p).pulse.m_ramp_dn_time = p.m_duration ∧
    (SetShape Real.sqrt verbose p).pulse.m_duration = p.m_duration ∧
    sweptArea (SetShape Real.sqrt verbose p).pulse = p.m_area := by
  rw [SetShape_fixed_duration Real.sqrt verbose p hdur hfa
    (fun h => absurd h.1 (not_lt.mpr hreq))]
  obtain ⟨fA, -, fS, fR, -⟩ := SetTrapezoid_frame Real.sqrt p
  rw [slopes_rampConst Real.sqrt p hA hS (peak_nonneg p hG) hG, fA]
  obtain ⟨hTpos, hTsq⟩ := min_duration_sq p hA hG hS
  have hC := rampConst_pos p hS
  have ha : 0 < |p.m_area| := abs_pos.mpr hA
  have hT : 0 < p.m_duration := lt_of_lt_of_le hTpos hreq
  have hD : 4 * |p.m_area| * rampConst p ≤ p.m_duration * p.m_duration :=
    le_trans hTsq (mul_le_mul hreq hreq hTpos.le hT.le)
  obtain ⟨hg, hq, hle⟩ := reduced_ampl p.m_duration |p.m_area| (rampConst p) hC ha hT hD
  generalize hgdef : (p.m_duration
      - Real.sqrt (p.m_duration * p.m_duration - 4 * |p.m_area| * rampConst p))
      / (2 * rampConst p) = g at hg hq hle
  generalize hp3 : ({ SetTrapezoid Real.sqrt p with m_max_ampl := g } : TrapGradPulse ℝ) = p3
  have e1 : p3.m_area = p.m_area := by rw [← hp3]; exact fA
  have e2 : p3.m_slew_rate = p.m_slew_rate := by rw [← hp3]; exact fS
  have e3 : p3.m_asym_sr = p.m_asym_sr := by rw [← hp3]; exact fR
  have e4 : p3.m_max_ampl = g := by rw [← hp3]
  obtain ⟨cU, cD, cC⟩ := rates_congr p p3 e2 e3
  have hA3 : p3.m_area ≠ 0 := by rw [e1]; exact hA
  have hG3 : 0 < p3.m_max_ampl := by rw [e4]; exact hg
  have hS3 : 0 < p3.m_slew_rate := by rw [e2]; exact hS
  obtain ⟨hpk, hpl⟩ := peak_of_le p3 hG3 hS3 (by rw [e4, cC, e1]; exact hle)
  obtain ⟨-, -, -, h4, h5, h6, h7⟩ :=
    SetTrapezoid_of_ne Real.sqrt p3 hA3 hS3 (peak_nonneg p3 hG3) hG3
  have harea := sweptArea_SetTrapezoid p3 hA3 hG3 hS3
  have hu := upRate_pos p hS
  have hd := dnRate_pos p hS
  have hsum : g / upRate p + (|p.m_area| - g * g * rampConst p) / g + g / dnRate p
      = p.m_duration := by
    have h2C : g / upRate p + g / dnRate p = 2 * rampConst p * g := by
      unfold rampConst
      field_simp
      ring
    have : (|p.m_area| - g * g * rampConst p) / g + 2 * rampConst p * g = p.m_duration := by
      field_simp
      linarith
    linarith
  refine ⟨rfl, ?_, ?_, ?_⟩
  · show (SetTrapezoid Real.sqrt p3).m_ramp_up_time + (SetTrapezoid Real.sqrt p3).m_flat_top_time
      + (SetTrapezoid Real.sqrt p3).m_ramp_dn_time = p.m_duration
    rw [h4, h5, h6, hpk, hpl, e4, cU, cD, cC, e1]
    exact hsum
  · show (SetTrapezoid Real.sqrt p3).m_duration = p.m_duration
    rw [h7, hpk, hpl, e4, cU, cD, cC, e1]
    exact hsum
  · rw [← e1]
    exact harea

/-- The exact-arithmetic statement `fixed_duration_reproduced` at the scenario pulse with a
requested duration of 6 (the shortest is 251/50). -/
theorem fixed_duration_reproduced_witness :
    (SetShape Real.sqrt false (fixedDurationPulse ℝ)).ok = true ∧
    (SetShape Real.sqrt false (fixedDurationPulse ℝ)).pulse.m_ramp_up_time
      + (SetShape Real.sqrt false (fixedDurationPulse ℝ)).pulse.m_flat_top_time
      + (SetShape Real.sqrt false (fixedDurationPulse ℝ)).pulse.m_ramp_dn_time
      = (fixedDurationPulse ℝ).m_duration ∧
    (SetShape Real.sqrt false (fixedDurationPulse ℝ)).pulse.m_duration
      = (fixedDurationPulse ℝ).m_duration ∧
    sweptArea (SetShape Real.sqrt false (fixedDurationPulse ℝ)).pulse
      = (fixedDurationPulse ℝ).m_area :=
  fixed_duration_reproduced (fixedDurationPulse ℝ) false
    (by norm_num [fixedDurationPulse, scenarioPulse])
    (by norm_num [fixedDurationPulse, scenarioPulse])
    (by norm_num [fixedDurationPulse, scenarioPulse])
    rfl rfl
    (by norm_num [SetTrapezoid, SetDuration, fixedDurationPulse, scenarioPulse, abs_of_pos])

/-- C3, evaluated. The scenario pulse with a requested duration of 1 cannot be realised (its
shortest duration is 251/50 > 1). `SetShape` returns false when verbose, but returns true when
not verbose. -/
theorem infeasible_silent_reports_success :
    (tooShortPulse ℝ).m_duration < (SetTrapezoid Real.sqrt (tooShortPulse ℝ)).m_duration ∧
    (SetShape Real.sqrt true (tooShortPulse ℝ)).ok = false ∧
    (SetShape Real.sqrt false (tooShortPulse ℝ)).ok = true := by
  have hmin : (SetTrapezoid Real.sqrt (tooShortPulse ℝ)).m_duration = 251 / 50 := by
    norm_num [SetTrapezoid, SetDuration, tooShortPulse, scenarioPulse, abs_of_pos]
  have hlt : (tooShortPulse ℝ).m_duration < (SetTrapezoid Real.sqrt (tooShortPulse ℝ)).m_duration := by
    rw [hmin]
    norm_num [tooShortPulse, scenarioPulse]
  refine ⟨hlt, ?_, ?_⟩
  · have hf := (SetTrapezoid_frame Real.sqrt (tooShortPulse ℝ)).2.2.2.2.2.1
    have hd : (tooShortPulse ℝ).m_has_duration = true := rfl
    have ha : (tooShortPulse ℝ).m_has_flat_top_area = false := rfl
    rw [hd] at hf
    simp only [SetShape, ha, hd, hf, Bool.false_eq_true, if_false, if_true, true_or, hlt,
      and_self]
  · rw [SetShape_fixed_duration Real.sqrt false (tooShortPulse ℝ) rfl rfl (by simp)]

/-- C4, evaluated. With FlatTopArea 1, FlatTopTime 2 and asymmetry ratio 2 (maximum amplitude
1, slew rate 1) the shortest-time solve has a flat top of 5/4 <= 2, `SetShape` succeeds, and
the pulse it leaves has flat-top time 17/8 (not 2) and flat-top area 17/16 (not 1). -/
theorem asym_flat_top_misses_target :
    (SetTrapezoid Real.sqrt (SetArea (asymFlatTopPulse ℝ) 2)).m_flat_top_time = 5 / 4 ∧
    (SetShape Real.sqrt false (asymFlatTopPulse ℝ)).ok = true ∧
    (SetShape Real.sqrt true (asymFlatTopPulse ℝ)).ok = true ∧
    (SetShape Real.sqrt false (asymFlatTopPulse ℝ)).pulse.m_flat_top_time = 17 / 8 ∧
    (SetShape Real.sqrt false (asymFlatTopPulse ℝ)).pulse.m_amplitude
      * (SetShape Real.sqrt false (asymFlatTopPulse ℝ)).pulse.m_flat_top_time = 17 / 16 := by
  refine ⟨?_, ?_, ?_, ?_, ?_⟩
  · norm_num [SetTrapezoid, SetDuration, SetArea, asymFlatTopPulse, abs_of_pos]
  · norm_num [SetShape, SetTrapezoid, SetDuration, SetArea, asymFlatTopPulse, abs_of_pos]
  · norm_num [SetShape, SetTrapezoid, SetDuration, SetArea, asymFlatTopPulse, abs_of_pos]
  · norm_num [SetShape, SetTrapezoid, SetDuration, SetArea, asymFlatTopPulse, abs_of_pos]
  · norm_num [SetShape, SetTrapezoid, SetDuration, SetArea, asymFlatTopPulse, abs_of_pos]

/-- The ADC loop appends one TPOI per listed index and changes nothing else. -/
theorem addADCs_tpoi (φ : α) (is : List Nat) (p : TrapGradPulse α) :
    (addADCs φ p is).m_tpoi
      = p.m_tpoi ++ is.map (fun i => { dtime := adcTime p i, dphase := adcPhase φ p }) ∧
    (addADCs φ p is).m_ramp_up_time = p.m_ramp_up_time ∧
    (addADCs φ p is).m_flat_top_time = p.m_flat_top_time := by
  induction is generalizing p with
  | nil => simp [addADCs]
  | cons i is ih =>
    obtain ⟨h1, h2, h3⟩ := ih (tpoiAdd p
      (p.m_ramp_up_time + ((i + 1 : Nat) : α) * p.m_flat_top_time / ((GetNADC p + 1 : Nat) : α))
      (if p.m_phase_lock then φ else 0))
    refine ⟨?_, ?_, ?_⟩
    · rw [addADCs, h1]
      simp [tpoiAdd, adcTime, adcPhase, GetNADC]
    · rw [addADCs, h2]; rfl
    · rw [addADCs, h3]; rfl

/-- C7. TPOI placement on a fixed-flat-top pulse: with FlatTopTime set, `flatTopTime > 0`, `N`
ADCs and phase lock either off or carrying a non-negative value, `SetTPOIs` (from any earlier
TPOI set) leaves exactly `N + 4` TPOIs: the two boundary markers at `TIME_ERR_TOL` and
`duration - TIME_ERR_TOL`, the `N` ADCs at `rampUpTime + (i+1)*flatTopTime/(N+1)`, and the two
corner markers at `rampUpTime` and `rampUpTime + flatTopTime`; exactly these 4 markers have
phase `-1`; every ADC time lies strictly inside `(rampUpTime, rampUpTime + flatTopTime)` and
consecutive ADC times differ by `flatTopTime/(N+1)`. -/
theorem flat_top_tpoi_placement (tol φ : α) (base : TrapGradPulse α → TrapGradPulse α)
    (p : TrapGradPulse α) (hft : p.m_has_flat_top_time = true) (hpos : 0 < p.m_flat_top_time)
    (hφ : p.m_phase_lock = false ∨ 0 ≤ φ) :
    (SetTPOIs tol φ base p).m_tpoi
      = [{ dtime := tol, dphase := -1 }, { dtime := p.m_duration - tol, dphase := -1 }]
        ++ (List.range p.m_adc).map (fun i => { dtime := adcTime p i, dphase := adcPhase φ p })
        ++ [{ dtime := p.m_ramp_up_time, dphase := -1 },
            { dtime := p.m_ramp_up_time + p.m_flat_top_time, dphase := -1 }] ∧
    (SetTPOIs tol φ base p).m_tpoi.length = p.m_adc + 4 ∧
    (SetTPOIs tol φ base p).m_tpoi.filter (fun x => decide (x.dphase = -1))
      = [{ dtime := tol, dphase := -1 }, { dtime := p.m_duration - tol, dphase := -1 },
         { dtime := p.m_ramp_up_time, dphase := -1 },
         { dtime := p.m_ramp_up_time + p.m_flat_top_time, dphase := -1 }] ∧
    (∀ i, i < p.m_adc →
      p.m_ramp_up_time < adcTime p i ∧ adcTime p i < p.m_ramp_up_time + p.m_flat_top_time) ∧
    (∀ i, i + 1 < p.m_adc →
      adcTime p (i + 1) - adcTime p i = p.m_flat_top_time / ((p.m_adc + 1 : Nat) : α)) := by
  have hN : (0 : α) < ((p.m_adc + 1 : Nat) : α) := by exact_mod_cast Nat.succ_pos _
  have hphase : 0 ≤ adcPhase φ p := by
    unfold adcPhase
    rcases hφ with h | h
    · simp [h]
    · split_ifs
      · exact h
      · exact le_rfl
  have hlist : (SetTPOIs tol φ base p).m_tpoi
      = [{ dtime := tol, dphase := -1 }, { dtime := p.m_duration - tol, dphase := -1 }]
        ++ (List.range p.m_adc).map (fun i => { dtime := adcTime p i, dphase := adcPhase φ p })
        ++ [{ dtime := p.m_ramp_up_time, dphase := -1 },
            { dtime := p.m_ramp_up_time + p.m_flat_top_time, dphase := -1 }] := by
    obtain ⟨h1, h2, h3⟩ := addADCs_tpoi φ (List.range p.m_adc)
      (tpoiAdd (tpoiAdd (tpoiReset p) tol (-1)) (p.m_duration - tol) (-1))
    simp only [SetTPOIs, hft, not_true_eq_false, if_false, GetNADC, GetDuration]
    simp only [tpoiAdd, tpoiReset] at h1 h2 h3 ⊢
    rw [h1, h2, h3]
    simp [adcTime, adcPhase, GetNADC]
  refine ⟨hlist, ?_, ?_, ?_, ?_⟩
  · rw [hlist]
    simp
  · rw [hlist]
    have hne : ¬ adcPhase φ p = -1 := by
      intro h
      rw [h] at hphase
      linarith
    simp [List.filter_append, List.filter_map, hne, Function.comp_def]
  · intro i hi
    have hi1 : ((i + 1 : Nat) : α) < ((p.m_adc + 1 : Nat) : α) := by
      exact_mod_cast Nat.succ_lt_succ hi
    have hi0 : (0 : α) < ((i + 1 : Nat) : α) := by exact_mod_cast Nat.succ_pos _
    unfold adcTime GetNADC
    constructor
    · have : 0 < ((i + 1 : Nat) : α) * p.m_flat_top_time / ((p.m_adc + 1 : Nat) : α) := by
        positivity
      linarith
    · have : ((i + 1 : Nat) : α) * p.m_flat_top_time / ((p.m_adc + 1 : Nat) : α)
          < p.m_flat_top_time := by
        rw [div_lt_iff₀ hN]
        nlinarith
      linarith
  · intro i _
    unfold adcTime GetNADC
    push_cast
    field_simp
    ring

/-- C7 at a pulse with three ADCs on a flat top of 4 after a ramp of 1. -/
theorem flat_top_tpoi_placement_witness :
    (SetTPOIs (1 / 1000000) 0 id (flatTopPulse ℚ)).m_tpoi.length = 3 + 4 ∧
    (SetTPOIs (1 / 1000000) 0 id (flatTopPulse ℚ)).m_tpoi.filter
        (fun x => decide (x.dphase = -1))
      = [{ dtime := 1 / 1000000, dphase := -1 }, { dtime := 6 - 1 / 1000000, dphase := -1 },
         { dtime := 1, dphase := -1 }, { dtime := 1 + 4, dphase := -1 }] :=
  ⟨(flat_top_tpoi_placement (1 / 1000000) 0 id (flatTopPulse ℚ) rfl
      (by norm_num [flatTopPulse]) (Or.inl rfl)).2.1,
   (flat_top_tpoi_placement (1 / 1000000) 0 id (flatTopPulse ℚ) rfl
      (by norm_num [flatTopPulse]) (Or.inl rfl)).2.2.1⟩

/-- C9. Constraint validation: in every mode other than PREP_UPDATE, `Prepare` returns false
whenever Duration and FlatTopTime are both declared, or Area and FlatTopArea are both declared,
or FlatTopTime is declared without FlatTopArea; it then returns before the base class and the
solver run, so that only the three `m_has_*` flags are refreshed and amplitude, slopes,
ramp and flat-top times and duration are unchanged. In PREP_UPDATE mode the three checks
are not performed: whatever is declared, `Prepare` goes straight to the base class and the
solver. -/
theorem prepare_validates_constraints (sqrt : α → α) (dom : String → Bool)
    (base : PrepareMode → TrapGradPulse α → Outcome α) (mode : PrepareMode)
    (p : TrapGradPulse α) :
    (mode ≠ PrepareMode.PREP_UPDATE →
      ((dom ("Duration") = true ∧ dom ("FlatTopTime") = true) ∨
       (dom ("Area") = true ∧ dom ("FlatTopArea") = true) ∨
       (dom ("FlatTopTime") = true ∧ dom ("FlatTopArea") = false)) →
      (Prepare sqrt dom base mode p).ok = false ∧
      (Prepare sqrt dom base mode p).pulse
        = { p with m_has_flat_top_time := dom ("FlatTopTime"),
                   m_has_flat_top_area := dom ("FlatTopArea"),
                   m_has_duration := dom ("Duration") } ∧
      (Prepare sqrt dom base mode p).pulse.m_amplitude = p.m_amplitude ∧
      (Prepare sqrt dom base mode p).pulse.m_slope_up = p.m_slope_up ∧
      (Prepare sqrt dom base mode p).pulse.m_slope_dn = p.m_slope_dn ∧
      (Prepare sqrt dom base mode p).pulse.m_ramp_up_time = p.m_ramp_up_time ∧
      (Prepare sqrt dom base mode p).pulse.m_flat_top_time = p.m_flat_top_time ∧
      (Prepare sqrt dom base mode p).pulse.m_ramp_dn_time = p.m_ramp_dn_time ∧
      (Prepare sqrt dom base mode p).pulse.m_duration = p.m_duration) ∧
    Prepare sqrt dom base PrepareMode.PREP_UPDATE p
      = prepareTail sqrt base PrepareMode.PREP_UPDATE p := by
  constructor
  · intro hmode hbad
    have hpulse : (Prepare sqrt dom base mode p).ok = false ∧
        (Prepare sqrt dom base mode p).pulse
          = { p with m_has_flat_top_time := dom ("FlatTopTime"),
                     m_has_flat_top_area := dom ("FlatTopArea"),
                     m_has_duration := dom ("Duration") } := by
      unfold Prepare
      rw [if_pos hmode]
      rcases hbad with ⟨h1, h2⟩ | ⟨h1, h2⟩ | ⟨h1, h2⟩
      · simp [h1, h2]
      · by_cases hd : dom ("Duration") = true <;> by_cases ht : dom ("FlatTopTime") = true <;>
          simp [h1, h2, hd, ht]
      · by_cases hd : dom ("Duration") = true <;> by_cases ha : dom ("Area") = true <;>
          simp [h1, h2, hd, ha]
    refine ⟨hpulse.1, hpulse.2, ?_, ?_, ?_, ?_, ?_, ?_, ?_⟩ <;> rw [hpulse.2]
  · simp [Prepare]

/-- C9 at the scenario pulse with both Duration and FlatTopTime declared, in verbose mode. -/
theorem prepare_validates_constraints_witness :
    (Prepare Rat.sqrt (fun s => decide (s = "Duration" ∨ s = "FlatTopTime"))
        (fun _ q => { ok := true, pulse := q, cout := [] })
        PrepareMode.PREP_VERBOSE (scenarioPulse ℚ)).ok = false :=
  ((prepare_validates_constraints Rat.sqrt (fun s => decide (s = "Duration" ∨ s = "FlatTopTime"))
      (fun _ q => { ok := true, pulse := q, cout := [] })
      PrepareMode.PREP_VERBOSE (scenarioPulse ℚ)).1 (by decide) (Or.inl ⟨by decide, by decide⟩)).1

/-- The state left by `SetShape` when neither Duration, FlatTopTime nor FlatTopArea is set. -/
theorem SetShape_free (sqrt : α → α) (verbose : Bool) (p : TrapGradPulse α)
    (hdur : p.m_has_duration = false) (hft : p.m_has_flat_top_time = false)
    (hfa : p.m_has_flat_top_area = false) :
    SetShape sqrt verbose p = { ok := true, pulse := SetTrapezoid sqrt p, cout := [] } := by
  simp only [SetShape, hfa, hdur, hft, Bool.false_eq_true, if_false, or_self]

theorem peak_pos (p : TrapGradPulse ℝ) (hA : p.m_area ≠ 0) (hG : 0 < p.m_max_ampl)
    (hS : 0 < p.m_slew_rate) : 0 < peak Real.sqrt p := by
  unfold peak
  split_ifs
  · exact Real.sqrt_pos.mpr (div_pos (abs_pos.mpr hA) (rampConst_pos p hS))
  · exact hG

theorem peak_le_max (p : TrapGradPulse ℝ) (hG : 0 < p.m_max_ampl) (hS : 0 < p.m_slew_rate) :
    peak Real.sqrt p ≤ p.m_max_ampl := by
  have hC := rampConst_pos p hS
  unfold peak
  split_ifs with hc
  · rw [← Real.sqrt_mul_self hG.le]
    apply Real.sqrt_le_sqrt
    rw [div_le_iff₀ hC]
    exact hc
  · exact le_rfl

/-- The duration of the shortest-time solve, with the two ramps taken together. -/
theorem min_duration_eq (p : TrapGradPulse ℝ) (hA : p.m_area ≠ 0) (hG : 0 < p.m_max_ampl)
    (hS : 0 < p.m_slew_rate) :
    (SetTrapezoid Real.sqrt p).m_duration = 2 * rampConst p * peak Real.sqrt p + plateau p := by
  obtain ⟨-, -, -, -, -, -, h7⟩ := SetTrapezoid_of_ne Real.sqrt p hA hS (peak_nonneg p hG) hG
  have hu := upRate_pos p hS
  have hd := dnRate_pos p hS
  rw [h7]
  unfold rampConst
  field_simp
  ring

/-- The reduced amplitude limit of the fixed-duration mode does not exceed the limit it
replaces. -/
theorem reduced_ampl_le (p : TrapGradPulse ℝ) (hA : p.m_area ≠ 0) (hG : 0 < p.m_max_ampl)
    (hS : 0 < p.m_slew_rate) (g : ℝ) (hg : 0 < g)
    (hq : rampConst p * g * g - p.m_duration * g + |p.m_area| = 0)
    (hle : g * g * rampConst p ≤ |p.m_area|)
    (hreq : (SetTrapezoid Real.sqrt p).m_duration ≤ p.m_duration) :
    g ≤ p.m_max_ampl := by
  have hC := rampConst_pos p hS
  rw [min_duration_eq p hA hG hS] at hreq
  by_cases hc : |p.m_area| ≤ p.m_max_ampl * p.m_max_ampl * rampConst p
  · have h2 : g * g ≤ p.m_max_ampl * p.m_max_ampl := by
      have : g * g * rampConst p ≤ p.m_max_ampl * p.m_max_ampl * rampConst p := le_trans hle hc
      exact le_of_mul_le_mul_right this hC
    exact (mul_self_le_mul_self_iff hg.le hG.le).mpr h2
  · have hp : peak Real.sqrt p = p.m_max_ampl := by simp only [peak, if_neg hc]
    have hpl : plateau p
        = (|p.m_area| - p.m_max_ampl * p.m_max_ampl * rampConst p) / p.m_max_ampl := by
      simp only [plateau, if_neg hc]
    rw [hp, hpl] at hreq
    have hTG : rampConst p * p.m_max_ampl * p.m_max_ampl + |p.m_area|
        ≤ p.m_duration * p.m_max_ampl := by
      have := mul_le_mul_of_nonneg_right hreq hG.le
      have e : (2 * rampConst p * p.m_max_ampl
          + (|p.m_area| - p.m_max_ampl * p.m_max_ampl * rampConst p) / p.m_max_ampl)
          * p.m_max_ampl = rampConst p * p.m_max_ampl * p.m_max_ampl + |p.m_area| := by
        field_simp
        ring
      linarith
    by_contra hcon
    push_neg at hcon
    have h1 : rampConst p * g * p.m_max_ampl < rampConst p * g * g :=
      mul_lt_mul_of_pos_left hcon (mul_pos hC hg)
    nlinarith [mul_le_mul_of_nonneg_right hTG hg.le, mul_pos hg hG]

/-- The amplitude left by `SetShape` in fixed-duration mode on a feasible request: the sign of
the area times the reduced amplitude limit, which is positive and at most `m_max_ampl`; the
limit itself is restored. -/
theorem fixed_duration_amplitude (p : TrapGradPulse ℝ) (verbose : Bool) (hA : p.m_area ≠ 0)
    (hG : 0 < p.m_max_ampl) (hS : 0 < p.m_slew_rate) (hdur : p.m_has_duration = true)
    (hfa : p.m_has_flat_top_area = false)
    (hreq : (SetTrapezoid Real.sqrt p).m_duration ≤ p.m_duration) :
    (SetShape Real.sqrt verbose p).pulse.m_amplitude
      = p.m_area / |p.m_area| * ((p.m_duration
          - Real.sqrt (p.m_duration * p.m_duration - 4 * |p.m_area| * rampConst p))
          / (2 * rampConst p)) ∧
    0 < (p.m_duration - Real.sqrt (p.m_duration * p.m_duration - 4 * |p.m_area| * rampConst p))
          / (2 * rampConst p) ∧
    (p.m_duration - Real.sqrt (p.m_duration * p.m_duration - 4 * |p.m_area| * rampConst p))
          / (2 * rampConst p) ≤ p.m_max_ampl ∧
    (SetShape Real.sqrt verbose p).pulse.m_max_ampl = p.m_max_ampl := by
  rw [SetShape_fixed_duration Real.sqrt verbose p hdur hfa
    (fun h => absurd h.1 (not_lt.mpr hreq))]
  obtain ⟨fA, fG, fS, fR, -⟩ := SetTrapezoid_frame Real.sqrt p
  rw [slopes_rampConst Real.sqrt p hA hS (peak_nonneg p hG) hG, fA]
  obtain ⟨hTpos, hTsq⟩ := min_duration_sq p hA hG hS
  have hC := rampConst_pos p hS
  have ha : 0 < |p.m_area| := abs_pos.mpr hA
  have hT : 0 < p.m_duration := lt_of_lt_of_le hTpos hreq
  have hD : 4 * |p.m_area| * rampConst p ≤ p.m_duration * p.m_duration :=
    le_trans hTsq (mul_le_mul hreq hreq hTpos.le hT.le)
  obtain ⟨hg, hq, hle⟩ := reduced_ampl p.m_duration |p.m_area| (rampConst p) hC ha hT hD
  generalize hgdef : (p.m_duration
      - Real.sqrt (p.m_duration * p.m_duration - 4 * |p.m_area| * rampConst p))
      / (2 * rampConst p) = g at hg hq hle
  have hgG : g ≤ p.m_max_ampl := reduced_ampl_le p hA hG hS g hg hq hle hreq
  generalize hp3 : ({ SetTrapezoid Real.sqrt p with m_max_ampl := g } : TrapGradPulse ℝ) = p3
  have e1 : p3.m_area = p.m_area := by rw [← hp3]; exact fA
  have e2 : p3.m_slew_rate = p.m_slew_rate := by rw [← hp3]; exact fS
  have e3 : p3.m_asym_sr = p.m_asym_sr := by rw [← hp3]; exact fR
  have e4 : p3.m_max_ampl = g := by rw [← hp3]
  obtain ⟨-, -, cC⟩ := rates_congr p p3 e2 e3
  have hA3 : p3.m_area ≠ 0 := by rw [e1]; exact hA
  have hG3 : 0 < p3.m_max_ampl := by rw [e4]; exact hg
  have hS3 : 0 < p3.m_slew_rate := by rw [e2]; exact hS
  obtain ⟨hpk, -⟩ := peak_of_le p3 hG3 hS3 (by rw [e4, cC, e1]; exact hle)
  obtain ⟨-, -, h3, -⟩ :=
    SetTrapezoid_of_ne Real.sqrt p3 hA3 hS3 (peak_nonneg p3 hG3) hG3
  refine ⟨?_, hg, hgG, fG⟩
  show (SetTrapezoid Real.sqrt p3).m_amplitude = p.m_area / |p.m_area| * g
  rw [h3, hpk, e4, e1]

/-- The sign of `a / |a| * x` for a positive `x` is the sign of `a`. -/
theorem sign_mul_pos (a x : ℝ) (ha : a ≠ 0) (hx : 0 < x) :
    |a / |a| * x| = x ∧ (0 < a → 0 < a / |a| * x) ∧ (a < 0 → a / |a| * x < 0) := by
  refine ⟨?_, ?_, ?_⟩
  · rw [abs_mul, abs_sign a ha, one_mul, abs_of_pos hx]
  · intro h
    rw [abs_of_pos h, div_self ha, one_mul]
    exact hx
  · intro h
    rw [abs_of_neg h, div_neg, div_self ha]
    linarith

/-- The amplitude limit in exact arithmetic (the reals, not binary64; for binary64 see
`fixed_duration_binary64_amplitude`), in free-area and fixed-duration modes: for a non-zero area, positive
maximum amplitude and slew rate and any asymmetry ratio, with FlatTopArea not set, the shape
left by `SetShape` in free-area mode (neither Duration nor FlatTopTime set), and in
fixed-duration mode for a requested duration at least the shortest possible one, satisfies
`|amplitude| <= maxAmplitude`, the amplitude has the sign of the area, and the maximum
amplitude is the one before the call. -/
theorem amplitude_within_limit (p : TrapGradPulse ℝ) (verbose : Bool) (hA : p.m_area ≠ 0)
    (hG : 0 < p.m_max_ampl) (hS : 0 < p.m_slew_rate) (hfa : p.m_has_flat_top_area = false)
    (hmode : (p.m_has_duration = false ∧ p.m_has_flat_top_time = false) ∨
      (p.m_has_duration = true ∧ (SetTrapezoid Real.sqrt p).m_duration ≤ p.m_duration)) :
    |(SetShape Real.sqrt verbose p).pulse.m_amplitude| ≤ p.m_max_ampl ∧
    (0 < p.m_area → 0 < (SetShape Real.sqrt verbose p).pulse.m_amplitude) ∧
    (p.m_area < 0 → (SetShape Real.sqrt verbose p).pulse.m_amplitude < 0) ∧
    (SetShape Real.sqrt verbose p).pulse.m_max_ampl = p.m_max_ampl := by
  rcases hmode with ⟨hdur, hft⟩ | ⟨hdur, hreq⟩
  · rw [SetShape_free Real.sqrt verbose p hdur hft hfa]
    obtain ⟨-, -, h3, -⟩ := SetTrapezoid_of_ne Real.sqrt p hA hS (peak_nonneg p hG) hG
    obtain ⟨s1, s2, s3⟩ := sign_mul_pos p.m_area (peak Real.sqrt p) hA (peak_pos p hA hG hS)
    show |(SetTrapezoid Real.sqrt p).m_amplitude| ≤ p.m_max_ampl ∧
      (0 < p.m_area → 0 < (SetTrapezoid Real.sqrt p).m_amplitude) ∧
      (p.m_area < 0 → (SetTrapezoid Real.sqrt p).m_amplitude < 0) ∧
      (SetTrapezoid Real.sqrt p).m_max_ampl = p.m_max_ampl
    rw [h3, s1]
    exact ⟨peak_le_max p hG hS, s2, s3, (SetTrapezoid_frame Real.sqrt p).2.1⟩
  · obtain ⟨h1, h2, h3, h4⟩ := fixed_duration_amplitude p verbose hA hG hS hdur hfa hreq
    obtain ⟨s1, s2, s3⟩ := sign_mul_pos p.m_area _ hA h2
    rw [h1, s1]
    exact ⟨h3, s2, s3, h4⟩

/-- The exact-arithmetic statement `amplitude_within_limit` at the scenario pulse, in free-area
mode and with a requested duration of 6. -/
theorem amplitude_within_limit_witness :
    |(SetShape Real.sqrt false (scenarioPulse ℝ)).pulse.m_amplitude|
      ≤ (scenarioPulse ℝ).m_max_ampl ∧
    |(SetShape Real.sqrt false (fixedDurationPulse ℝ)).pulse.m_amplitude|
      ≤ (fixedDurationPulse ℝ).m_max_ampl :=
  ⟨(amplitude_within_limit (scenarioPulse ℝ) false (by norm_num [scenarioPulse])
      (by norm_num [scenarioPulse]) (by norm_num [scenarioPulse]) rfl (Or.inl ⟨rfl, rfl⟩)).1,
   (amplitude_within_limit (fixedDurationPulse ℝ) false
      (by norm_num [fixedDurationPulse, scenarioPulse])
      (by norm_num [fixedDurationPulse, scenarioPulse])
      (by norm_num [fixedDurationPulse, scenarioPulse]) rfl
      (Or.inr ⟨rfl, by
        norm_num [SetTrapezoid, SetDuration, fixedDurationPulse, scenarioPulse, abs_of_pos]⟩)).1⟩

/-- C12, evaluated. With FlatTopArea 1, FlatTopTime 3/4 and asymmetry ratio 1/2 (maximum
amplitude 1, slew rate 1) the shortest-time solve has a flat top of 1/2 <= 3/4, `SetShape`
succeeds (verbose or not) and restores the maximum amplitude 1, but the pulse it leaves has
amplitude 4/3. -/
theorem flat_top_exceeds_amplitude_limit :
    (SetTrapezoid Real.sqrt (SetArea (slowRampFlatTopPulse ℝ) 2)).m_flat_top_time = 1 / 2 ∧
    (SetShape Real.sqrt false (slowRampFlatTopPulse ℝ)).ok = true ∧
    (SetShape Real.sqrt true (slowRampFlatTopPulse ℝ)).ok = true ∧
    (SetShape Real.sqrt false (slowRampFlatTopPulse ℝ)).pulse.m_max_ampl = 1 ∧
    (SetShape Real.sqrt false (slowRampFlatTopPulse ℝ)).pulse.m_amplitude = 4 / 3 := by
  refine ⟨?_, ?_, ?_, ?_, ?_⟩
  · norm_num [SetTrapezoid, SetDuration, SetArea, slowRampFlatTopPulse, abs_of_pos]
  · norm_num [SetShape, SetTrapezoid, SetDuration, SetArea, slowRampFlatTopPulse, abs_of_pos]
  · norm_num [SetShape, SetTrapezoid, SetDuration, SetArea, slowRampFlatTopPulse, abs_of_pos]
  · norm_num [SetShape, SetTrapezoid, SetDuration, SetArea, slowRampFlatTopPulse, abs_of_pos]
  · norm_num [SetShape, SetTrapezoid, SetDuration, SetArea, slowRampFlatTopPulse, abs_of_pos]

/-- The slopes chosen by `SetTrapezoid` on a non-zero area. -/
theorem SetTrapezoid_slopes (sqrt : α → α) (p : TrapGradPulse α) (hA : p.m_area ≠ 0) :
    (SetTrapezoid sqrt p).m_slope_up = p.m_area / |p.m_area| * upRate p ∧
    (SetTrapezoid sqrt p).m_slope_dn = -(p.m_area / |p.m_area| * dnRate p) := by
  simp only [SetTrapezoid, SetDuration, if_neg hA]
  unfold upRate dnRate
  constructor <;> split_ifs <;> ring

/-- The magnitudes of the slopes chosen by `SetTrapezoid` on a non-zero area. -/
theorem SetTrapezoid_abs_slopes (sqrt : α → α) (p : TrapGradPulse α) (hA : p.m_area ≠ 0)
    (hS : 0 < p.m_slew_rate) :
    |(SetTrapezoid sqrt p).m_slope_up| = upRate p ∧
    |(SetTrapezoid sqrt p).m_slope_dn| = dnRate p := by
  obtain ⟨h1, h2⟩ := SetTrapezoid_slopes sqrt p hA
  rw [h1, h2, abs_neg, abs_mul, abs_mul, abs_sign _ hA, one_mul, one_mul,
    abs_of_pos (upRate_pos p hS), abs_of_pos (dnRate_pos p hS)]
  exact ⟨rfl, rfl⟩

/-- C13, refuted as stated. On the scenario pulse with asymmetry ratio 2 (area 10, slew rate
100) the ramp-up slope left by `SetTrapezoid` is 200, above the slew rate. -/
theorem steep_ramp_exceeds_slew_rate :
    (steepRampPulse ℝ).m_area ≠ 0 ∧ 0 < (steepRampPulse ℝ).m_slew_rate ∧
    (SetTrapezoid Real.sqrt (steepRampPulse ℝ)).m_slope_up = 200 ∧
    ¬ (|(SetTrapezoid Real.sqrt (steepRampPulse ℝ)).m_slope_up| ≤ (steepRampPulse ℝ).m_slew_rate ∧
       |(SetTrapezoid Real.sqrt (steepRampPulse ℝ)).m_slope_dn|
         ≤ (steepRampPulse ℝ).m_slew_rate) := by
  have h : (SetTrapezoid Real.sqrt (steepRampPulse ℝ)).m_slope_up = 200 := by
    norm_num [SetTrapezoid, SetDuration, steepRampPulse, scenarioPulse, abs_of_pos]
  refine ⟨by norm_num [steepRampPulse, scenarioPulse], by norm_num [steepRampPulse, scenarioPulse],
    h, ?_⟩
  rw [h]
  norm_num [steepRampPulse, scenarioPulse]

/-- C13, amended. For a non-zero area and a positive slew rate the magnitudes of the slopes
left by `SetTrapezoid` are the slew rate, multiplied by the asymmetry ratio for the ramp up
when the ratio is positive and by its magnitude for the ramp down when it is negative; hence
`|slope_up| <= slewRate` and `|slope_dn| <= slewRate` hold exactly when the asymmetry ratio
has magnitude at most 1. -/
theorem slew_rate_limit (sqrt : α → α) (p : TrapGradPulse α) (hA : p.m_area ≠ 0)
    (hS : 0 < p.m_slew_rate) :
    |(SetTrapezoid sqrt p).m_slope_up|
      = (if p.m_asym_sr > 0 then p.m_slew_rate * p.m_asym_sr else p.m_slew_rate) ∧
    |(SetTrapezoid sqrt p).m_slope_dn|
      = (if p.m_asym_sr < 0 then p.m_slew_rate * |p.m_asym_sr| else p.m_slew_rate) ∧
    ((|(SetTrapezoid sqrt p).m_slope_up| ≤ p.m_slew_rate ∧
      |(SetTrapezoid sqrt p).m_slope_dn| ≤ p.m_slew_rate) ↔ |p.m_asym_sr| ≤ 1) := by
  obtain ⟨h1, h2⟩ := SetTrapezoid_abs_slopes sqrt p hA hS
  refine ⟨h1, h2, ?_⟩
  rw [h1, h2]
  unfold upRate dnRate
  rcases lt_trichotomy p.m_asym_sr 0 with h | h | h
  · rw [if_neg (not_lt.mpr h.le), if_pos h]
    constructor
    · intro hh
      exact (mul_le_iff_le_one_right hS).mp hh.2
    · intro hh
      exact ⟨le_rfl, (mul_le_iff_le_one_right hS).mpr hh⟩
  · rw [h]
    simp
  · rw [if_pos h, if_neg (not_lt.mpr h.le), abs_of_pos h]
    constructor
    · intro hh
      exact (mul_le_iff_le_one_right hS).mp hh.1
    · intro hh
      exact ⟨(mul_le_iff_le_one_right hS).mpr hh, le_rfl⟩

/-- C13 (amended) at the scenario pulse, whose asymmetry ratio is 0. -/
theorem slew_rate_limit_witness :
    |(SetTrapezoid Real.sqrt (scenarioPulse ℝ)).m_slope_up| ≤ (scenarioPulse ℝ).m_slew_rate ∧
    |(SetTrapezoid Real.sqrt (scenarioPulse ℝ)).m_slope_dn| ≤ (scenarioPulse ℝ).m_slew_rate :=
  (slew_rate_limit Real.sqrt (scenarioPulse ℝ) (by norm_num [scenarioPulse])
    (by norm_num [scenarioPulse])).2.2.mpr (by norm_num [scenarioPulse])

/-- C14, evaluated. After a solve of the scenario pulse (which leaves the end of the flat top at
time 5), setting the area to zero and solving again zeroes amplitude, slopes, ramp and
flat-top times and duration, but leaves `m_time_to_ramp_dn` at 5, which is not
`m_ramp_up_time + m_flat_top_time = 0`. -/
theorem zero_area_keeps_end_of_flat_top :
    (solvedThenZeroPulse ℝ Real.sqrt).m_area = 0 ∧
    (SetTrapezoid Real.sqrt (solvedThenZeroPulse ℝ Real.sqrt)).m_amplitude = 0 ∧
    (SetTrapezoid Real.sqrt (solvedThenZeroPulse ℝ Real.sqrt)).m_slope_up = 0 ∧
    (SetTrapezoid Real.sqrt (solvedThenZeroPulse ℝ Real.sqrt)).m_slope_dn = 0 ∧
    (SetTrapezoid Real.sqrt (solvedThenZeroPulse ℝ Real.sqrt)).m_ramp_up_time = 0 ∧
    (SetTrapezoid Real.sqrt (solvedThenZeroPulse ℝ Real.sqrt)).m_flat_top_time = 0 ∧
    (SetTrapezoid Real.sqrt (solvedThenZeroPulse ℝ Real.sqrt)).m_ramp_dn_time = 0 ∧
    (SetTrapezoid Real.sqrt (solvedThenZeroPulse ℝ Real.sqrt)).m_duration = 0 ∧
    (SetTrapezoid Real.sqrt (solvedThenZeroPulse ℝ Real.sqrt)).m_time_to_ramp_dn = 5 := by
  have hz : (solvedThenZeroPulse ℝ Real.sqrt).m_area = 0 := rfl
  have ht : (solvedThenZeroPulse ℝ Real.sqrt).m_time_to_ramp_dn = 5 := by
    norm_num [solvedThenZeroPulse, SetArea, SetTrapezoid, SetDuration, scenarioPulse, abs_of_pos]
  have hq : SetTrapezoid Real.sqrt (solvedThenZeroPulse ℝ Real.sqrt)
      = SetDuration { solvedThenZeroPulse ℝ Real.sqrt with
          m_ramp_up_time := 0, m_flat_top_time := 0, m_ramp_dn_time := 0,
          m_slope_up := 0, m_slope_dn := 0, m_amplitude := 0 } 0 := by
    rw [SetTrapezoid, if_pos hz]
  rw [hq]
  exact ⟨rfl, rfl, rfl, rfl, rfl, rfl, rfl, rfl, ht⟩

/-- C15. Triangular/trapezoidal boundary: for positive maximum amplitude and slew rate and any
asymmetry ratio, when `|area| = maxAmplitude^2 * dC` exactly, with
`dC = 1/(2|slope_up|) + 1/(2|slope_dn|)` (the area is then not zero), `SetTrapezoid` yields
`flatTopTime = 0` and `|amplitude| = maxAmplitude`; the amplitude and the flat-top time are
those of the trapezoidal-branch formulas `dSign*Gmax` and
`|dSign*(|area| - Gmax^2*dC) / (dSign*Gmax)|` at that area. -/
theorem boundary_continuous (p : TrapGradPulse ℝ) (hA : p.m_area ≠ 0) (hG : 0 < p.m_max_ampl)
    (hS : 0 < p.m_slew_rate)
    (hb : |p.m_area| = p.m_max_ampl * p.m_max_ampl
      * (1 / |2 * (SetTrapezoid Real.sqrt p).m_slope_up|
          + 1 / |2 * (SetTrapezoid Real.sqrt p).m_slope_dn|)) :
    (SetTrapezoid Real.sqrt p).m_flat_top_time = 0 ∧
    |(SetTrapezoid Real.sqrt p).m_amplitude| = p.m_max_ampl ∧
    (SetTrapezoid Real.sqrt p).m_amplitude = p.m_area / |p.m_area| * p.m_max_ampl ∧
    (SetTrapezoid Real.sqrt p).m_flat_top_time
      = |p.m_area / |p.m_area| * (|p.m_area| - p.m_max_ampl * p.m_max_ampl
          * (1 / |2 * (SetTrapezoid Real.sqrt p).m_slope_up|
              + 1 / |2 * (SetTrapezoid Real.sqrt p).m_slope_dn|))
          / (p.m_area / |p.m_area| * p.m_max_ampl)| := by
  rw [slopes_rampConst Real.sqrt p hA hS (peak_nonneg p hG) hG] at hb ⊢
  obtain ⟨-, -, h3, -, -, h6, -⟩ := SetTrapezoid_of_ne Real.sqrt p hA hS (peak_nonneg p hG) hG
  obtain ⟨hpk, hpl⟩ := peak_of_le p hG hS hb.ge
  have hft : (SetTrapezoid Real.sqrt p).m_flat_top_time = 0 := by
    rw [h6, hpl, hb, sub_self, zero_div]
  refine ⟨hft, ?_, ?_, ?_⟩
  · rw [h3, hpk, (sign_mul_pos p.m_area p.m_max_ampl hA hG).1]
  · rw [h3, hpk]
  · rw [hft, hb, sub_self, mul_zero, zero_div, abs_zero]

/-- C15 at the scenario pulse with area 1/25 = 4 * 1/100, on the boundary between the
triangular and the trapezoidal shape. -/
theorem boundary_continuous_witness :
    (SetTrapezoid Real.sqrt (boundaryPulse ℝ)).m_flat_top_time = 0 ∧
    |(SetTrapezoid Real.sqrt (boundaryPulse ℝ)).m_amplitude| = (boundaryPulse ℝ).m_max_ampl := by
  have h := boundary_continuous (boundaryPulse ℝ) (by norm_num [boundaryPulse, scenarioPulse])
    (by norm_num [boundaryPulse, scenarioPulse]) (by norm_num [boundaryPulse, scenarioPulse])
    (by
      rw [slopes_rampConst Real.sqrt (boundaryPulse ℝ)
        (by norm_num [boundaryPulse, scenarioPulse])
        (by norm_num [boundaryPulse, scenarioPulse])
        (peak_nonneg _ (by norm_num [boundaryPulse, scenarioPulse]))
        (by norm_num [boundaryPulse, scenarioPulse])]
      norm_num [boundaryPulse, scenarioPulse, rampConst, upRate, dnRate, abs_of_pos])
  exact ⟨h.1, h.2.1⟩

/-- The ramp times left by `SetTrapezoid` are the magnitudes of amplitude over slope. -/
theorem ramp_times_eq (p : TrapGradPulse ℝ) (hA : p.m_area ≠ 0) (hG : 0 < p.m_max_ampl)
    (hS : 0 < p.m_slew_rate) :
    (SetTrapezoid Real.sqrt p).m_ramp_up_time
      = |(SetTrapezoid Real.sqrt p).m_amplitude / (SetTrapezoid Real.sqrt p).m_slope_up| ∧
    (SetTrapezoid Real.sqrt p).m_ramp_dn_time
      = |(SetTrapezoid Real.sqrt p).m_amplitude / (SetTrapezoid Real.sqrt p).m_slope_dn| := by
  obtain ⟨h1, h2, h3, h4, h5, -⟩ :=
    SetTrapezoid_of_ne Real.sqrt p hA hS (peak_nonneg p hG) hG
  have hs1 := abs_sign p.m_area hA
  have hX := peak_nonneg p hG
  rw [h1, h2, h3, h4, h5, abs_div, abs_div, abs_neg, abs_mul, abs_mul, abs_mul, hs1,
    abs_of_pos (upRate_pos p hS), abs_of_pos (dnRate_pos p hS), abs_of_nonneg hX, one_mul,
    one_mul, one_mul]
  exact ⟨rfl, rfl⟩

/-- C16. Branch selection and closed-form result of the shortest-time solve: for a non-zero
area with positive maximum amplitude and slew rate, with
`dC = 1/(2|slope_up|) + 1/(2|slope_dn|)`, `SetTrapezoid` yields a flat top (`flatTopTime > 0`
and `|amplitude| = maxAmplitude`) exactly when `|area| > maxAmplitude^2 * dC`, and otherwise a
triangle with `flatTopTime = 0` and `|amplitude| = sqrt(|area|/dC)`; in both cases
`rampUpTime = |amplitude/slope_up|`, `rampDnTime = |amplitude/slope_dn|` and
`duration = rampUpTime + flatTopTime + rampDnTime`. -/
theorem branch_selection (p : TrapGradPulse ℝ) (hA : p.m_area ≠ 0) (hG : 0 < p.m_max_ampl)
    (hS : 0 < p.m_slew_rate) :
    ((0 < (SetTrapezoid Real.sqrt p).m_flat_top_time ∧
        |(SetTrapezoid Real.sqrt p).m_amplitude| = p.m_max_ampl)
      ↔ p.m_max_ampl * p.m_max_ampl
          * (1 / |2 * (SetTrapezoid Real.sqrt p).m_slope_up|
              + 1 / |2 * (SetTrapezoid Real.sqrt p).m_slope_dn|) < |p.m_area|) ∧
    (¬ (p.m_max_ampl * p.m_max_ampl
          * (1 / |2 * (SetTrapezoid Real.sqrt p).m_slope_up|
              + 1 / |2 * (SetTrapezoid Real.sqrt p).m_slope_dn|) < |p.m_area|) →
      (SetTrapezoid Real.sqrt p).m_flat_top_time = 0 ∧
      |(SetTrapezoid Real.sqrt p).m_amplitude|
        = Real.sqrt (|p.m_area| / (1 / |2 * (SetTrapezoid Real.sqrt p).m_slope_up|
              + 1 / |2 * (SetTrapezoid Real.sqrt p).m_slope_dn|))) ∧
    (SetTrapezoid Real.sqrt p).m_ramp_up_time
      = |(SetTrapezoid Real.sqrt p).m_amplitude / (SetTrapezoid Real.sqrt p).m_slope_up| ∧
    (SetTrapezoid Real.sqrt p).m_ramp_dn_time
      = |(SetTrapezoid Real.sqrt p).m_amplitude / (SetTrapezoid Real.sqrt p).m_slope_dn| ∧
    (SetTrapezoid Real.sqrt p).m_duration
      = (SetTrapezoid Real.sqrt p).m_ramp_up_time + (SetTrapezoid Real.sqrt p).m_flat_top_time
        + (SetTrapezoid Real.sqrt p).m_ramp_dn_time := by
  obtain ⟨hru, hrd⟩ := ramp_times_eq p hA hG hS
  rw [slopes_rampConst Real.sqrt p hA hS (peak_nonneg p hG) hG]
  obtain ⟨-, -, h3, h4, h5, h6, h7⟩ :=
    SetTrapezoid_of_ne Real.sqrt p hA hS (peak_nonneg p hG) hG
  have habs : |(SetTrapezoid Real.sqrt p).m_amplitude| = peak Real.sqrt p := by
    rw [h3, (sign_mul_pos p.m_area _ hA (peak_pos p hA hG hS)).1]
  refine ⟨?_, ?_, hru, hrd, ?_⟩
  · rw [h6, habs]
    constructor
    · intro h
      by_contra hcon
      have hc : |p.m_area| ≤ p.m_max_ampl * p.m_max_ampl * rampConst p := not_lt.mp hcon
      have : plateau p = 0 := by simp only [plateau, if_pos hc]
      rw [this] at h
      exact lt_irrefl _ h.1
    · intro h
      have hc : ¬ |p.m_area| ≤ p.m_max_ampl * p.m_max_ampl * rampConst p := not_le.mpr h
      have e1 : plateau p
          = (|p.m_area| - p.m_max_ampl * p.m_max_ampl * rampConst p) / p.m_max_ampl := by
        simp only [plateau, if_neg hc]
      have e2 : peak Real.sqrt p = p.m_max_ampl := by simp only [peak, if_neg hc]
      rw [e1, e2]
      exact ⟨div_pos (sub_pos.mpr h) hG, rfl⟩
  · intro hcon
    have hc : |p.m_area| ≤ p.m_max_ampl * p.m_max_ampl * rampConst p := not_lt.mp hcon
    rw [h6, habs]
    constructor
    · simp only [plateau, if_pos hc]
    · simp only [peak, if_pos hc]
  · rw [h7, h4, h5, h6]

/-- C16 at the scenario pulse: area 10, maximum amplitude 2, slew rate 100 and symmetric ramps
give `dC = 1/100`, the trapezoidal branch (10 > 4/100), amplitude 2, ramp times 1/50,
flat-top time 249/50 and duration 251/50. -/
theorem branch_selection_witness :
    ((0 < (SetTrapezoid Real.sqrt (scenarioPulse ℝ)).m_flat_top_time ∧
        |(SetTrapezoid Real.sqrt (scenarioPulse ℝ)).m_amplitude| = (scenarioPulse ℝ).m_max_ampl)
      ↔ (scenarioPulse ℝ).m_max_ampl * (scenarioPulse ℝ).m_max_ampl
          * (1 / |2 * (SetTrapezoid Real.sqrt (scenarioPulse ℝ)).m_slope_up|
              + 1 / |2 * (SetTrapezoid Real.sqrt (scenarioPulse ℝ)).m_slope_dn|)
          < |(scenarioPulse ℝ).m_area|) ∧
    1 / |2 * (SetTrapezoid Real.sqrt (scenarioPulse ℝ)).m_slope_up|
      + 1 / |2 * (SetTrapezoid Real.sqrt (scenarioPulse ℝ)).m_slope_dn| = 1 / 100 ∧
    (SetTrapezoid Real.sqrt (scenarioPulse ℝ)).m_amplitude = 2 ∧
    (SetTrapezoid Real.sqrt (scenarioPulse ℝ)).m_ramp_up_time = 1 / 50 ∧
    (SetTrapezoid Real.sqrt (scenarioPulse ℝ)).m_ramp_dn_time = 1 / 50 ∧
    (SetTrapezoid Real.sqrt (scenarioPulse ℝ)).m_flat_top_time = 249 / 50 ∧
    (SetTrapezoid Real.sqrt (scenarioPulse ℝ)).m_duration = 251 / 50 := by
  have h := branch_selection (scenarioPulse ℝ) (by norm_num [scenarioPulse])
    (by norm_num [scenarioPulse]) (by norm_num [scenarioPulse])
  refine ⟨h.1, ?_, ?_, ?_, ?_, ?_, ?_⟩ <;>
    norm_num [SetTrapezoid, SetDuration, scenarioPulse, abs_of_pos]

/-- C19. The free-area solve is time-optimal: for a non-zero area, positive maximum amplitude
and slew rate and any asymmetry ratio, with the slopes chosen by `SetTrapezoid`, any trapezoid
with these ramp slopes (ramp times `|g/slope_up|` and `|g/slope_dn|`), a flat-top amplitude `g`
with `0 < |g| <= maxAmplitude`, a flat-top time `f >= 0` and the same area has a total duration
at least the duration computed by `SetTrapezoid`. -/
theorem shortest_time_optimal (p : TrapGradPulse ℝ) (hA : p.m_area ≠ 0) (hG : 0 < p.m_max_ampl)
    (hS : 0 < p.m_slew_rate) (g f : ℝ) (hg0 : 0 < |g|) (hgG : |g| ≤ p.m_max_ampl) (hf : 0 ≤ f)
    (harea : 1 / 2 * g * |g / (SetTrapezoid Real.sqrt p).m_slope_up| + g * f
      + 1 / 2 * g * |g / (SetTrapezoid Real.sqrt p).m_slope_dn| = p.m_area) :
    (SetTrapezoid Real.sqrt p).m_duration
      ≤ |g / (SetTrapezoid Real.sqrt p).m_slope_up| + f
        + |g / (SetTrapezoid Real.sqrt p).m_slope_dn| := by
  obtain ⟨a1, a2⟩ := SetTrapezoid_abs_slopes Real.sqrt p hA hS
  rw [abs_div, abs_div, a1, a2] at harea ⊢
  rw [min_duration_eq p hA hG hS]
  have hu := upRate_pos p hS
  have hd := dnRate_pos p hS
  have hC := rampConst_pos p hS
  have ha : 0 < |p.m_area| := abs_pos.mpr hA
  have hdur : |g| / upRate p + f + |g| / dnRate p = 2 * rampConst p * |g| + f := by
    unfold rampConst
    field_simp
    ring
  have hsw : |g| * (rampConst p * |g| + f) = |p.m_area| := by
    have e : g * (rampConst p * |g| + f) = p.m_area := by
      rw [← harea]
      unfold rampConst
      field_simp
      ring
    rw [← e, abs_mul, abs_of_pos (by positivity : 0 < rampConst p * |g| + f)]
  rw [hdur]
  generalize |g| = x at hg0 hgG hsw
  by_cases hc : |p.m_area| ≤ p.m_max_ampl * p.m_max_ampl * rampConst p
  · have hp : peak Real.sqrt p = Real.sqrt (|p.m_area| / rampConst p) := by
      simp only [peak, if_pos hc]
    have hq : plateau p = 0 := by simp only [plateau, if_pos hc]
    have hX0 : 0 ≤ Real.sqrt (|p.m_area| / rampConst p) := Real.sqrt_nonneg _
    have hXX : Real.sqrt (|p.m_area| / rampConst p) * Real.sqrt (|p.m_area| / rampConst p)
        * rampConst p = |p.m_area| := by
      rw [Real.mul_self_sqrt (div_nonneg ha.le hC.le)]
      field_simp
    rw [hp, hq, add_zero]
    generalize Real.sqrt (|p.m_area| / rampConst p) = X at hX0 hXX
    have hsq : (2 * rampConst p * X) * (2 * rampConst p * X)
        ≤ (2 * rampConst p * x + f) * (2 * rampConst p * x + f) := by
      have e : (2 * rampConst p * X) * (2 * rampConst p * X)
          = 4 * rampConst p * (x * (rampConst p * x + f)) := by
        rw [hsw, ← hXX]
        ring
      rw [e]
      nlinarith [mul_nonneg hf hf]
    exact (mul_self_le_mul_self_iff (by positivity) (by positivity)).mpr hsq
  · have hp : peak Real.sqrt p = p.m_max_ampl := by simp only [peak, if_neg hc]
    have hq : plateau p
        = (|p.m_area| - p.m_max_ampl * p.m_max_ampl * rampConst p) / p.m_max_ampl := by
      simp only [plateau, if_neg hc]
    have hlt : p.m_max_ampl * p.m_max_ampl * rampConst p < |p.m_area| := not_le.mp hc
    rw [hp, hq, ← hsw]
    rw [← hsw] at hlt
    have hpos : 0 < f - rampConst p * (p.m_max_ampl - x) := by
      have h1 : 0 < (p.m_max_ampl + x) * (f - rampConst p * (p.m_max_ampl - x)) := by
        nlinarith [mul_nonneg hG.le hf]
      have h2 : 0 < p.m_max_ampl + x := by linarith
      exact (mul_pos_iff_of_pos_left h2).mp h1
    have hprod : 0 ≤ (p.m_max_ampl - x) * (f - rampConst p * (p.m_max_ampl - x)) :=
      mul_nonneg (by linarith) hpos.le
    have e : 2 * rampConst p * p.m_max_ampl
        + (x * (rampConst p * x + f) - p.m_max_ampl * p.m_max_ampl * rampConst p) / p.m_max_ampl
        = (rampConst p * p.m_max_ampl * p.m_max_ampl + x * (rampConst p * x + f))
          / p.m_max_ampl := by
      field_simp
      ring
    rw [e, div_le_iff₀ hG]
    nlinarith

/-- C19 at the scenario pulse: the trapezoid with amplitude 1 and flat-top time 999/100 sweeps
the same area 10 and takes 1001/100, not less than the solved 251/50. -/
theorem shortest_time_optimal_witness :
    (SetTrapezoid Real.sqrt (scenarioPulse ℝ)).m_duration
      ≤ |(1 : ℝ) / (SetTrapezoid Real.sqrt (scenarioPulse ℝ)).m_slope_up| + 999 / 100
        + |(1 : ℝ) / (SetTrapezoid Real.sqrt (scenarioPulse ℝ)).m_slope_dn| :=
  shortest_time_optimal (scenarioPulse ℝ) (by norm_num [scenarioPulse])
    (by norm_num [scenarioPulse]) (by norm_num [scenarioPulse]) 1 (999 / 100)
    (by norm_num) (by norm_num [scenarioPulse]) (by norm_num)
    (by norm_num [SetTrapezoid, SetDuration, scenarioPulse, abs_of_pos])

/-- The argument of the fixed-duration square root in exact arithmetic (the reals, not
binary64; for binary64 see `fixed_duration_binary64_sqrt_argument`): for a non-zero area,
positive maximum amplitude and slew rate and any asymmetry ratio, if the requested duration
is at least the duration of the shortest-time solve then, with
`dC = 1/(2|slope_up|) + 1/(2|slope_dn|)`, `requested^2 - 4*|area|*dC >= 0`, so that the
argument of `sqrt` in the amplitude reduction of `SetShape` is non-negative, and the reduced
amplitude `(requested - sqrt(requested^2 - 4*|area|*dC)) / (2*dC)` is positive. -/
theorem fixed_duration_sqrt_defined (p : TrapGradPulse ℝ) (hA : p.m_area ≠ 0)
    (hG : 0 < p.m_max_ampl) (hS : 0 < p.m_slew_rate)
    (hreq : (SetTrapezoid Real.sqrt p).m_duration ≤ p.m_duration) :
    0 ≤ p.m_duration * p.m_duration - 4 * |(SetTrapezoid Real.sqrt p).m_area|
        * (1 / |2 * (SetTrapezoid Real.sqrt p).m_slope_up|
            + 1 / |2 * (SetTrapezoid Real.sqrt p).m_slope_dn|) ∧
    0 < (p.m_duration - Real.sqrt (p.m_duration * p.m_duration
          - 4 * |(SetTrapezoid Real.sqrt p).m_area|
            * (1 / |2 * (SetTrapezoid Real.sqrt p).m_slope_up|
                + 1 / |2 * (SetTrapezoid Real.sqrt p).m_slope_dn|)))
        / (2 * (1 / |2 * (SetTrapezoid Real.sqrt p).m_slope_up|
                + 1 / |2 * (SetTrapezoid Real.sqrt p).m_slope_dn|)) := by
  rw [slopes_rampConst Real.sqrt p hA hS (peak_nonneg p hG) hG,
    (SetTrapezoid_frame Real.sqrt p).1]
  obtain ⟨hTpos, hTsq⟩ := min_duration_sq p hA hG hS
  have hT : 0 < p.m_duration := lt_of_lt_of_le hTpos hreq
  have hD : 4 * |p.m_area| * rampConst p ≤ p.m_duration * p.m_duration :=
    le_trans hTsq (mul_le_mul hreq hreq hTpos.le hT.le)
  exact ⟨sub_nonneg.mpr hD,
    (reduced_ampl p.m_duration |p.m_area| (rampConst p) (rampConst_pos p hS)
      (abs_pos.mpr hA) hT hD).1⟩

/-- The exact-arithmetic statement `fixed_duration_sqrt_defined` at the scenario pulse with a
requested duration of 6: the argument of the square root
is `36 - 4*10/100 = 178/5`. -/
theorem fixed_duration_sqrt_defined_witness :
    (fixedDurationPulse ℝ).m_duration * (fixedDurationPulse ℝ).m_duration
        - 4 * |(SetTrapezoid Real.sqrt (fixedDurationPulse ℝ)).m_area|
        * (1 / |2 * (SetTrapezoid Real.sqrt (fixedDurationPulse ℝ)).m_slope_up|
            + 1 / |2 * (SetTrapezoid Real.sqrt (fixedDurationPulse ℝ)).m_slope_dn|) = 178 / 5 ∧
    0 ≤ (fixedDurationPulse ℝ).m_duration * (fixedDurationPulse ℝ).m_duration
        - 4 * |(SetTrapezoid Real.sqrt (fixedDurationPulse ℝ)).m_area|
        * (1 / |2 * (SetTrapezoid Real.sqrt (fixedDurationPulse ℝ)).m_slope_up|
            + 1 / |2 * (SetTrapezoid Real.sqrt (fixedDurationPulse ℝ)).m_slope_dn|) :=
  ⟨by norm_num [SetTrapezoid, SetDuration, fixedDurationPulse, scenarioPulse, abs_of_pos],
   (fixed_duration_sqrt_defined (fixedDurationPulse ℝ)
      (by norm_num [fixedDurationPulse, scenarioPulse])
      (by norm_num [fixedDurationPulse, scenarioPulse])
      (by norm_num [fixedDurationPulse, scenarioPulse])
      (by norm_num [SetTrapezoid, SetDuration, fixedDurationPulse, scenarioPulse,
        abs_of_pos])).1⟩

/-- C2, evaluated in binary64. The doubles area 0.1225, maximum amplitude 10, slew rate 1 with
Duration 0.7 declared: the shortest-time solve takes exactly the requested 0.7, so the request
is feasible and `SetShape` returns true (verbose or not), but the argument of `sqrt` at
line 126 is `-2^-54` and the pulse is left with ramp-up, flat-top and ramp-down time and
duration all NaN. With area 1e-12, maximum amplitude 40, slew rate 200 and Duration 2 (the
shortest-time solve takes about 1.4e-7) `SetShape` returns true and leaves the duration
`4409219479054717 * 2^-51`, about 1.958, not 2. -/
theorem fixed_duration_binary64_not_reproduced :
    (SetTrapezoid64 edgePulse64).m_duration = edgePulse64.m_duration ∧
    F64.lt edgePulse64.m_duration (SetTrapezoid64 edgePulse64).m_duration = false ∧
    (SetShape64 false edgePulse64).ok = true ∧
    (SetShape64 true edgePulse64).ok = true ∧
    (SetShape64 false edgePulse64).pulse.m_ramp_up_time = F64.nan ∧
    (SetShape64 false edgePulse64).pulse.m_flat_top_time = F64.nan ∧
    (SetShape64 false edgePulse64).pulse.m_ramp_dn_time = F64.nan ∧
    (SetShape64 false edgePulse64).pulse.m_duration = F64.nan ∧
    F64.lt smallAreaPulse64.m_duration (SetTrapezoid64 smallAreaPulse64).m_duration = false ∧
    (SetShape64 false smallAreaPulse64).ok = true ∧
    smallAreaPulse64.m_duration = F64.fin 1 1 ∧
    (SetShape64 false smallAreaPulse64).pulse.m_duration
      = F64.fin 4409219479054717 (-51) := by
  decide!

/-- C11, evaluated in binary64. The doubles area 101, maximum amplitude 1000, slew rate 5 with
Duration 8.988882021697693 declared (exactly the duration of the shortest-time solve):
`SetShape` returns true and leaves the amplitude NaN, for which `|amplitude| <= maxAmplitude`
is false. With area 1e-17, maximum amplitude 40, slew rate 200 and Duration 2 the reduced
amplitude limit cancels to 0: `SetShape` returns true and leaves amplitude 0, which has not the
sign of the (positive) area, and an infinite flat-top time. -/
theorem fixed_duration_binary64_amplitude :
    (SetTrapezoid64 edgePulse101).m_duration = edgePulse101.m_duration ∧
    (SetShape64 false edgePulse101).ok = true ∧
    (SetShape64 false edgePulse101).pulse.m_amplitude = F64.nan ∧
    F64.le (F64.fabs (SetShape64 false edgePulse101).pulse.m_amplitude)
      (SetShape64 false edgePulse101).pulse.m_max_ampl = false ∧
    F64.lt tinyAreaPulse64.m_duration (SetTrapezoid64 tinyAreaPulse64).m_duration = false ∧
    F64.lt (F64.fin 0 0) tinyAreaPulse64.m_area = true ∧
    (SetShape64 false tinyAreaPulse64).ok = true ∧
    (SetShape64 false tinyAreaPulse64).pulse.m_amplitude = F64.fin 0 0 ∧
    (SetShape64 false tinyAreaPulse64).pulse.m_flat_top_time = F64.inf false := by
  decide!

/-- C20, evaluated in binary64. The doubles area 101, maximum amplitude 1000, slew rate 5 with
Duration 8.988882021697693 declared: the requested duration is the duration of the
shortest-time solve, the argument of `sqrt` at line 126 is `-2^-46`, its square root and the
reduced amplitude are NaN, and `SetShape` returns true with that NaN as amplitude. With area
0.1225, maximum amplitude 10, slew rate 1 and Duration 0.7 the argument is `-2^-54`. -/
theorem fixed_duration_binary64_sqrt_argument :
    (SetTrapezoid64 edgePulse101).m_duration = edgePulse101.m_duration ∧
    sqrtArgument64 (SetTrapezoid64 edgePulse101) edgePulse101.m_duration = F64.fin (-1) (-46) ∧
    F64.lt (sqrtArgument64 (SetTrapezoid64 edgePulse101) edgePulse101.m_duration) (F64.fin 0 0)
      = true ∧
    F64.sqrt (sqrtArgument64 (SetTrapezoid64 edgePulse101) edgePulse101.m_duration) = F64.nan ∧
    reducedAmplitude64 (SetTrapezoid64 edgePulse101) edgePulse101.m_duration = F64.nan ∧
    (SetShape64 false edgePulse101).ok = true ∧
    (SetShape64 false edgePulse101).pulse.m_amplitude = F64.nan ∧
    (SetTrapezoid64 edgePulse64).m_duration = edgePulse64.m_duration ∧
    sqrtArgument64 (SetTrapezoid64 edgePulse64) edgePulse64.m_duration = F64.fin (-1) (-54) ∧
    (SetShape64 false edgePulse64).pulse.m_amplitude = F64.nan := by
  decide!

end TrapGradPulse

namespace Sequence

variable {α : Type} [LinearOrderedField α]

theorem countLoop_eq (l : List (TPOISet α)) (n : Int) :
    countLoop l n = n - ((l.filter (fun tp => decide (tp.dphase < 0))).length : Int) := by
  induction l generalizing n with
  | nil => simp [countLoop]
  | cons tp rest ih =>
    rw [countLoop, ih]
    by_cases h : tp.dphase < 0
    · simp [h]
      ring
    · simp [h]

theorem addChildrenADCs_eq (children : List (Sequence α)) (lADC : Int) :
    addChildrenADCs children lADC = lADC + (children.map GetNumOfADCs).sum := by
  induction children generalizing lADC with
  | nil => simp [addChildrenADCs]
  | cons child rest ih =>
    rw [addChildrenADCs, ih]
    simp [add_assoc]

theorem iterate_add_const (c : Int) (f : Int → Int) (hf : ∀ x, f x = x + c) (n : Nat) (x : Int) :
    Nat.iterate f n x = x + n * c := by
  induction n generalizing x with
  | zero => simp
  | succ n ih =>
    rw [Function.iterate_succ_apply, hf, ih]
    push_cast
    ring

/-- C6. ADC counting: `GetNumOfADCs` on an Atomic block equals its TPOI count minus the number
of its TPOIs whose phase is < 0; on a Concatenation with `R` repetitions whose children have
ADC counts `c1..ck` it equals `R * (c1 + ... + ck)`. -/
theorem adc_counting :
    (∀ a : AtomicSequence α,
      GetNumOfADCs (atom a)
        = (a.m_tpoi.length : Int)
          - ((a.m_tpoi.filter (fun tp => decide (tp.dphase < 0))).length : Int)) ∧
    (∀ (R : Nat) (children : List (Sequence α)),
      GetNumOfADCs (concat R children) = (R : Int) * (children.map GetNumOfADCs).sum) := by
  constructor
  · intro a
    rw [GetNumOfADCs, countLoop_eq]
    rfl
  · intro R children
    rw [GetNumOfADCs, iterate_add_const _ _ (addChildrenADCs_eq children) R 0]
    simp

/-- What the loop over the children computes from child `i` on. -/
theorem prepareChildren_run {σ : Type} (mode : PrepareMode)
    (children : List (PrepareMode → σ → Bool × σ)) (i : Nat) (r : PrepareRun σ) :
    (prepareChildren mode children i r).state
      = stateBeforeChild mode children r.state children.length ∧
    ((prepareChildren mode children i r).btag = true
      ↔ r.btag = true ∧ ∀ (k : Nat) (child : PrepareMode → σ → Bool × σ),
          children[k]? = some child →
          (child mode (stateBeforeChild mode children r.state k)).1 = true) ∧
    (prepareChildren mode children i r).calls.length = r.calls.length + children.length ∧
    (∀ (k : Nat) (child : PrepareMode → σ → Bool × σ), children[k]? = some child →
      (prepareChildren mode children i r).calls[r.calls.length + k]?
        = some (i + k, (child mode (stateBeforeChild mode children r.state k)).1)) ∧
    (∀ k, k < r.calls.length → (prepareChildren mode children i r).calls[k]? = r.calls[k]?) := by
  induction children generalizing i r with
  | nil =>
    refine ⟨rfl, ?_, rfl, ?_, ?_⟩
    · simp [prepareChildren]
    · intro k child h
      simp at h
    · intro k _
      rfl
  | cons c0 rest ih =>
    obtain ⟨h1, h2, h3, h4, h5⟩ := ih (i + 1)
      { btag := (c0 mode r.state).1 && r.btag, state := (c0 mode r.state).2,
        calls := r.calls ++ [(i, (c0 mode r.state).1)] }
    simp only [List.length_append, List.length_singleton] at h3 h4 h5
    have hs : ∀ k, stateBeforeChild mode (c0 :: rest) r.state (k + 1)
        = stateBeforeChild mode rest (c0 mode r.state).2 k := by
      intro k
      simp [stateBeforeChild]
    refine ⟨?_, ?_, ?_, ?_, ?_⟩
    · rw [prepareChildren, h1, List.length_cons, hs]
    · rw [prepareChildren, h2]
      simp only [Bool.and_eq_true]
      constructor
      · rintro ⟨⟨hc, hr⟩, hall⟩
        refine ⟨hr, ?_⟩
        intro k child hk
        cases k with
        | zero =>
          simp only [List.getElem?_cons_zero, Option.some.injEq] at hk
          subst hk
          exact hc
        | succ k =>
          rw [List.getElem?_cons_succ] at hk
          rw [hs]
          exact hall k child hk
      · rintro ⟨hr, hall⟩
        refine ⟨⟨hall 0 c0 (by simp), hr⟩, ?_⟩
        intro k child hk
        have := hall (k + 1) child (by simpa using hk)
        rwa [hs] at this
    · rw [prepareChildren, h3, List.length_cons]
      omega
    · intro k child hk
      rw [prepareChildren]
      cases k with
      | zero =>
        simp only [List.getElem?_cons_zero, Option.some.injEq] at hk
        subst hk
        simp only [Nat.add_zero]
        rw [h5 r.calls.length (by omega)]
        simp [stateBeforeChild]
      | succ k =>
        rw [List.getElem?_cons_succ] at hk
        have := h4 k child hk
        rw [hs]
        rw [show r.calls.length + (k + 1) = r.calls.length + 1 + k by omega,
          show i + (k + 1) = i + 1 + k by omega]
        exact this
    · intro k hk
      rw [prepareChildren, h5 k (by omega)]
      exact List.getElem?_append_left hk

/-- C10. Prepare cascade without short-circuit: with the children's virtual `Prepare` as
arbitrary state transformers, `Sequence::Prepare(mode)` returns true if and only if the node's
base `Module::Prepare` returned true and the `Prepare(mode)` of every child returned true,
each child `k` being prepared in the state left by the children `0, .., k-1` prepared once
each in declaration order; the state left behind is the one reached when every child has been
prepared exactly once in declaration order (followed by the warning of the top node), whatever
the base class or an earlier child returned; and the calls recorded are child `k` with its
returned value at position `k`, one for each child. -/
theorem prepare_cascade {σ : Type} (Module_Prepare : PrepareMode → σ → Bool × σ)
    (HideAttribute : String → σ → σ) (children : List (PrepareMode → σ → Bool × σ))
    (isTop : Bool) (name : String) (cout : String → σ → σ) (mode : PrepareMode) (s : σ) :
    ((Prepare Module_Prepare HideAttribute children isTop name cout mode s).btag = true
      ↔ (Module_Prepare mode s).1 = true ∧
        ∀ (k : Nat) (child : PrepareMode → σ → Bool × σ), children[k]? = some child →
          (child mode (stateBeforeChild mode children
            (stateAfterBase Module_Prepare HideAttribute mode s) k)).1 = true) ∧
    (Prepare Module_Prepare HideAttribute children isTop name cout mode s).state
      = (if isTop = true
            ∧ (Prepare Module_Prepare HideAttribute children isTop name cout mode s).btag = false
            ∧ mode = PrepareMode.PREP_VERBOSE then
          cout ("\n!!! warning in Prepare(1) of sequence " ++ name ++ "\n\n")
            (stateBeforeChild mode children
              (stateAfterBase Module_Prepare HideAttribute mode s) children.length)
        else stateBeforeChild mode children
              (stateAfterBase Module_Prepare HideAttribute mode s) children.length) ∧
    (Prepare Module_Prepare HideAttribute children isTop name cout mode s).calls.length
      = children.length ∧
    (∀ (k : Nat) (child : PrepareMode → σ → Bool × σ), children[k]? = some child →
      (Prepare Module_Prepare HideAttribute children isTop name cout mode s).calls[k]?
        = some (k, (child mode (stateBeforeChild mode children
            (stateAfterBase Module_Prepare HideAttribute mode s) k)).1)) := by
  obtain ⟨h1, h2, h3, h4, -⟩ := prepareChildren_run mode children 0
    { btag := (Module_Prepare mode s).1,
      state := stateAfterBase Module_Prepare HideAttribute mode s,
      calls := [] }
  simp only [List.length_nil, Nat.zero_add] at h3 h4
  have hb : (Prepare Module_Prepare HideAttribute children isTop name cout mode s).btag
      = (prepareChildren mode children 0
          { btag := (Module_Prepare mode s).1,
            state := stateAfterBase Module_Prepare HideAttribute mode s,
            calls := [] }).btag := by
    simp only [Prepare, stateAfterBase]
    split_ifs <;> rfl
  have hc : (Prepare Module_Prepare HideAttribute children isTop name cout mode s).calls
      = (prepareChildren mode children 0
          { btag := (Module_Prepare mode s).1,
            state := stateAfterBase Module_Prepare HideAttribute mode s,
            calls := [] }).calls := by
    simp only [Prepare, stateAfterBase]
    split_ifs <;> rfl
  have hs : (Prepare Module_Prepare HideAttribute children isTop name cout mode s).state
      = (if isTop = true
            ∧ (prepareChildren mode children 0
                { btag := (Module_Prepare mode s).1,
                  state := stateAfterBase Module_Prepare HideAttribute mode s,
                  calls := [] }).btag = false
            ∧ mode = PrepareMode.PREP_VERBOSE then
          cout ("\n!!! warning in Prepare(1) of sequence " ++ name ++ "\n\n")
            (prepareChildren mode children 0
                { btag := (Module_Prepare mode s).1,
                  state := stateAfterBase Module_Prepare HideAttribute mode s,
                  calls := [] }).state
        else (prepareChildren mode children 0
                { btag := (Module_Prepare mode s).1,
                  state := stateAfterBase Module_Prepare HideAttribute mode s,
                  calls := [] }).state) := by
    simp only [Prepare, stateAfterBase]
    split_ifs <;> rfl
  rw [hs, hb, hc, h1, h3]
  exact ⟨h2, rfl, rfl, h4⟩

/-- C10 on a node whose base `Module::Prepare` fails and whose three children write their
number into the state, the first of them failing: `Prepare` returns false and all three
children have been prepared, once each and in order. -/
theorem prepare_cascade_witness :
    (Prepare (fun _ log => (false, log)) (fun _ log => log)
        [loggingChild 0 false, loggingChild 1 true, loggingChild 2 true]
        false ("S") (fun _ log => log) PrepareMode.PREP_INIT []).btag = false ∧
    (Prepare (fun _ log => (false, log)) (fun _ log => log)
        [loggingChild 0 false, loggingChild 1 true, loggingChild 2 true]
        false ("S") (fun _ log => log) PrepareMode.PREP_INIT []).state = [0, 1, 2] := by
  have h := prepare_cascade (fun _ log => (false, log)) (fun _ log => log)
    [loggingChild 0 false, loggingChild 1 true, loggingChild 2 true]
    false ("S") (fun _ log => log) PrepareMode.PREP_INIT ([] : List Nat)
  constructor
  · cases hb : (Prepare (fun _ log => (false, log)) (fun _ log => log)
        [loggingChild 0 false, loggingChild 1 true, loggingChild 2 true]
        false ("S") (fun _ log => log) PrepareMode.PREP_INIT ([] : List Nat)).btag
    · rfl
    · exact absurd (h.1.mp hb).1 (by simp)
  · rw [h.2.1]
    simp [stateBeforeChild, stateAfterBase, loggingChild]

theorem sampleLoop_append (a : AtomicSequence α) (flag : Bool) (t : α) (offset : Int)
    (l : List (TPOISet α)) (i : Int) (seqdata : NDData α) :
    sampleLoop a flag t offset l i seqdata = seqdata ++ sampleLoop a flag t offset l i [] := by
  induction l generalizing i seqdata with
  | nil => simp [sampleLoop]
  | cons tp rest ih =>
    simp only [sampleLoop]
    rw [ih _ (seqdata ++ _ ++ _), ih _ ([] ++ _ ++ _)]
    simp [List.append_assoc]

/-- The `MOD_ATOM` branch appends the cells of the block and leaves every flag as it was. -/
theorem collectAtom_eq (a : AtomicSequence α) (s : SeqState α) (t : α) (offset : Int) :
    collectAtom a s t offset
      = { seqdata := s.seqdata ++ atomCells a t offset, nonLinGrad := s.nonLinGrad } := by
  unfold collectAtom atomCells
  simp only [Function.update_same, Function.update_idem, Function.update_eq_self]
  rw [sampleLoop_append]

/-- The sample matrix left by `CollectSeqData` on a Concatenation of a nested Concatenation
(2 repetitions of the Atomic `a`) followed by the Atomic sibling `b`, called with `t = 0`
and `offset = 0`: the sibling is sampled with `t = 0` and `offset = 0` again. -/
theorem collect_nested_then_sibling (a b : AtomicSequence α) (s : SeqState α) :
    (CollectSeqData (concat 1 [concat 2 [atom a], atom b]) s 0 0).seqdata
      = s.seqdata ++ atomCells a 0 0 ++ atomCells a a.m_duration (atomNumOfTPOIs a)
        ++ atomCells b 0 0 := by
  simp [CollectSeqData, collectChildren, collectAtom_eq, List.append_assoc]

/-- C5, evaluated. On `nestedTree` (d = 3, m = 2, e = 5, k = 1) started at `t = 0`,
`offset = 0`, the columns assigned in the time row are 1, 2, 3, 4 and then 1 again: the
sibling's TPOI goes to column 1 with time 4 (its local time), overwriting the nested block's
first sample, and column 5 (= 2m + 1), where time 10 (= 2d + 4) belongs, is never assigned. -/
theorem nested_sibling_overwrites :
    (CollectSeqData nestedTree { seqdata := [], nonLinGrad := fun _ => true } 0 0).seqdata.columns 0
      = [1, 2, 3, 4, 1] ∧
    (CollectSeqData nestedTree { seqdata := [], nonLinGrad := fun _ => true } 0 0).seqdata.read 0 1
      = some 4 ∧
    (CollectSeqData nestedTree { seqdata := [], nonLinGrad := fun _ => true } 0 0).seqdata.read 0 5
      = none := by
  refine ⟨?_, ?_, ?_⟩
  · simp [nestedTree, CollectSeqData, collectChildren, collectAtom, sampleLoop, valueCells,
      nestedAtom, siblingAtom, NDData.columns, atomNumOfTPOIs, List.finRange]
  · simp [nestedTree, CollectSeqData, collectChildren, collectAtom, sampleLoop, valueCells,
      nestedAtom, siblingAtom, NDData.read, atomNumOfTPOIs, List.finRange]
  · simp [nestedTree, CollectSeqData, collectChildren, collectAtom, sampleLoop, valueCells,
      nestedAtom, siblingAtom, NDData.read, atomNumOfTPOIs, List.finRange]

theorem iterate_invariant {σ : Type} (f : σ → σ) (P : σ → Prop) (hf : ∀ x, P x → P (f x))
    (n : Nat) (x : σ) (hx : P x) : P (Nat.iterate f n x) := by
  induction n generalizing x with
  | zero => exact hx
  | succ n ih => exact ih (f x) (hf x hx)

mutual

/-- The flags after `CollectSeqData` are the flags before it. -/
theorem CollectSeqData_nonLinGrad : ∀ (q : Sequence α) (s : SeqState α) (t : α) (offset : Int),
    (CollectSeqData q s t offset).nonLinGrad = s.nonLinGrad
  | atom a, s, t, offset => by rw [CollectSeqData, collectAtom_eq]
  | concat reps children, s, t, offset => by
    rw [CollectSeqData]
    exact iterate_invariant (collectChildren children)
      (fun c => c.state.nonLinGrad = s.nonLinGrad)
      (fun c hc => (collectChildren_nonLinGrad children c).trans hc) reps
      { state := s, t := t, offset := offset } rfl

/-- The flags after the loop over the children are the flags before it. -/
theorem collectChildren_nonLinGrad : ∀ (children : List (Sequence α)) (c : Cursor α),
    (collectChildren children c).state.nonLinGrad = c.state.nonLinGrad
  | [], c => by rw [collectChildren]
  | atom a :: rest, c => by
    rw [collectChildren, collectChildren_nonLinGrad rest]
    exact CollectSeqData_nonLinGrad (atom a) c.state c.t c.offset
  | concat reps children :: rest, c => by
    rw [collectChildren, collectChildren_nonLinGrad rest]
    exact CollectSeqData_nonLinGrad (concat reps children) c.state c.t c.offset

end

/-- C17. The non-linear-gradient flag is restored: for every sequence tree and every initial
value of each Atomic block's flag, after `CollectSeqData` every Atomic block's flag equals its
value before the call; and whatever the flag of an Atomic block was, its TPOIs are sampled
(`GetValue`) with the flag set to false. -/
theorem nonLinGrad_restored (q : Sequence α) (s : SeqState α) (t : α) (offset : Int) :
    (∀ id : Nat, (CollectSeqData q s t offset).nonLinGrad id = s.nonLinGrad id) ∧
    (∀ a : AtomicSequence α, q = atom a →
      (CollectSeqData q s t offset).seqdata
        = s.seqdata ++ sampleLoop a false t offset a.m_tpoi 0 []) := by
  constructor
  · intro id
    rw [CollectSeqData_nonLinGrad]
  · intro a ha
    rw [ha, CollectSeqData, collectAtom_eq]
    rfl

theorem collectChildren_atoms (as : List (AtomicSequence α)) (c : Cursor α) :
    collectChildren (as.map atom) c
      = { state := { seqdata := c.state.seqdata ++ passCells as c.t c.offset,
                     nonLinGrad := c.state.nonLinGrad },
          t := c.t + totalDuration as,
          offset := c.offset + (totalTPOIs as : Int) } := by
  induction as generalizing c with
  | nil => simp [collectChildren, passCells, totalDuration, totalTPOIs]
  | cons a rest ih =>
    rw [List.map_cons, collectChildren, ih]
    simp [CollectSeqData, collectAtom_eq, passCells, totalDuration, totalTPOIs, atomNumOfTPOIs,
      add_assoc]

theorem iterate_atoms (as : List (AtomicSequence α)) (R : Nat) (c : Cursor α) :
    (Nat.iterate (collectChildren (as.map atom)) R c).state.seqdata
      = c.state.seqdata ++ repCells as R c.t c.offset := by
  induction R generalizing c with
  | zero => simp [repCells]
  | succ R ih =>
    rw [Function.iterate_succ_apply, ih, collectChildren_atoms]
    simp [repCells]

theorem columns_append {β : Type} (x y : List (Cell β)) (row : Nat) :
    NDData.columns (x ++ y) row = NDData.columns x row ++ NDData.columns y row := by
  simp [NDData.columns]

/-- One turn of the sampling loop assigns each of the rows 0 to 6 of its column once. -/
theorem columns_turn {β : Type} (a : AtomicSequence β) (flag : Bool) (col : Int) (v w time : β)
    (row : Nat) (hrow : row < 7) :
    NDData.columns ([{ row := 0, col := col, val := v }, { row := 1, col := col, val := w }]
      ++ valueCells a flag col time) row = [col] := by
  have h5 : List.finRange 5 = [0, 1, 2, 3, 4] := rfl
  interval_cases row <;> simp [NDData.columns, valueCells, h5, List.filter]

theorem sampleLoop_cons (a : AtomicSequence α) (flag : Bool) (t : α) (offset : Int)
    (tp : TPOISet α) (rest : List (TPOISet α)) (i : Int) :
    sampleLoop a flag t offset (tp :: rest) i []
      = ([{ row := 0, col := offset + i + 1, val := tp.dtime + t },
          { row := 1, col := offset + i + 1, val := tp.dphase }]
          ++ valueCells a flag (offset + i + 1) tp.dtime)
        ++ sampleLoop a flag t offset rest (i + 1) [] := by
  rw [sampleLoop, sampleLoop_append]
  simp

theorem columns_sampleLoop (a : AtomicSequence α) (flag : Bool) (t : α) (offset : Int)
    (l : List (TPOISet α)) (i : Int) (row : Nat) (hrow : row < 7) :
    NDData.columns (sampleLoop a flag t offset l i []) row
      = (List.range l.length).map (fun c : Nat => offset + i + (c : Int) + 1) := by
  induction l generalizing i with
  | nil => simp [sampleLoop, NDData.columns]
  | cons tp rest ih =>
    rw [sampleLoop_cons, columns_append, columns_turn a flag _ _ _ _ row hrow, ih,
      List.length_cons, Nat.add_comm, List.range_add, List.map_append, List.map_map]
    have h1 : List.range 1 = [0] := rfl
    rw [h1]
    simp only [List.map_cons, List.map_nil, List.singleton_append, Nat.cast_zero, add_zero]
    congr 1
    apply List.map_congr_left
    intro c _
    simp only [Function.comp_apply]
    push_cast
    ring

theorem columns_passCells (as : List (AtomicSequence α)) (t : α) (offset : Int) (row : Nat)
    (hrow : row < 7) :
    NDData.columns (passCells as t offset) row
      = (List.range (totalTPOIs as)).map (fun c : Nat => offset + (c : Int) + 1) := by
  induction as generalizing t offset with
  | nil => simp [passCells, NDData.columns, totalTPOIs]
  | cons a rest ih =>
    have e : totalTPOIs (a :: rest) = a.m_tpoi.length + totalTPOIs rest := by
      simp [totalTPOIs]
    rw [passCells, columns_append, atomCells, columns_sampleLoop a false t offset _ 0 row hrow,
      ih, e, List.range_add]
    simp [atomNumOfTPOIs, add_assoc]

theorem columns_repCells (as : List (AtomicSequence α)) (R : Nat) (t : α) (offset : Int)
    (row : Nat) (hrow : row < 7) :
    NDData.columns (repCells as R t offset) row
      = (List.range (R * totalTPOIs as)).map (fun c : Nat => offset + (c : Int) + 1) := by
  induction R generalizing t offset with
  | zero => simp [repCells, NDData.columns]
  | succ R ih =>
    rw [repCells, columns_append, columns_passCells as t offset row hrow, ih, Nat.succ_mul,
      Nat.add_comm (R * totalTPOIs as), List.range_add]
    simp [add_assoc]

theorem mem_sampleLoop (a : AtomicSequence α) (flag : Bool) (t : α) (offset : Int)
    (l : List (TPOISet α)) (i0 : Int) (i : Nat) (tp : TPOISet α) (h : l[i]? = some tp) :
    ({ row := 0, col := offset + i0 + (i : Int) + 1, val := tp.dtime + t } : Cell α)
      ∈ sampleLoop a flag t offset l i0 [] ∧
    ({ row := 1, col := offset + i0 + (i : Int) + 1, val := tp.dphase } : Cell α)
      ∈ sampleLoop a flag t offset l i0 [] := by
  induction l generalizing i0 i with
  | nil => simp at h
  | cons tp0 rest ih =>
    rw [sampleLoop_cons]
    cases i with
    | zero =>
      simp only [List.getElem?_cons_zero, Option.some.injEq] at h
      subst h
      simp
    | succ i =>
      rw [List.getElem?_cons_succ] at h
      obtain ⟨h0, h1⟩ := ih (i0 + 1) i h
      have e : offset + i0 + ((i + 1 : Nat) : Int) + 1 = offset + (i0 + 1) + (i : Int) + 1 := by
        push_cast
        ring
      rw [e]
      exact ⟨List.mem_append_right _ h0, List.mem_append_right _ h1⟩

theorem mem_passCells (as : List (AtomicSequence α)) (t : α) (offset : Int) (j : Nat)
    (a : AtomicSequence α) (h : as[j]? = some a) (t1 : α) (o1 : Int)
    (ht : t1 = t + totalDuration (as.take j))
    (ho : o1 = offset + (totalTPOIs (as.take j) : Int)) (c : Cell α)
    (hc : c ∈ atomCells a t1 o1) : c ∈ passCells as t offset := by
  induction as generalizing t offset j with
  | nil => simp at h
  | cons a0 rest ih =>
    rw [passCells]
    cases j with
    | zero =>
      simp only [List.getElem?_cons_zero, Option.some.injEq] at h
      subst h
      simp only [List.take_zero, totalDuration, totalTPOIs, List.map_nil, List.sum_nil,
        add_zero, Nat.cast_zero] at ht ho
      subst ht ho
      exact List.mem_append_left _ hc
    | succ j =>
      rw [List.getElem?_cons_succ] at h
      apply List.mem_append_right
      apply ih (t + a0.m_duration) (offset + atomNumOfTPOIs a0) j h
      · rw [ht]
        simp [totalDuration, add_assoc]
      · rw [ho]
        simp [totalTPOIs, atomNumOfTPOIs, add_assoc]

theorem mem_repCells (as : List (AtomicSequence α)) (R : Nat) (t : α) (offset : Int) (r : Nat)
    (hr : r < R) (t1 : α) (o1 : Int) (ht : t1 = t + (r : α) * totalDuration as)
    (ho : o1 = offset + (r : Int) * (totalTPOIs as : Int)) (c : Cell α)
    (hc : c ∈ passCells as t1 o1) : c ∈ repCells as R t offset := by
  induction R generalizing t offset r with
  | zero => omega
  | succ R ih =>
    rw [repCells]
    cases r with
    | zero =>
      simp only [Nat.cast_zero, zero_mul, add_zero] at ht ho
      subst ht ho
      exact List.mem_append_left _ hc
    | succ r =>
      apply List.mem_append_right
      apply ih (t + totalDuration as) (offset + (totalTPOIs as : Int)) r (by omega)
      · rw [ht]
        push_cast
        ring
      · rw [ho]
        push_cast
        ring

theorem col_sampleLoop (a : AtomicSequence α) (flag : Bool) (t : α) (offset : Int)
    (l : List (TPOISet α)) (i0 : Int) (c : Cell α)
    (hc : c ∈ sampleLoop a flag t offset l i0 []) : offset + i0 < c.col := by
  induction l generalizing i0 with
  | nil => simp [sampleLoop] at hc
  | cons tp rest ih =>
    rw [sampleLoop_cons] at hc
    rcases List.mem_append.mp hc with h | h
    · have : c.col = offset + i0 + 1 := by
        simp only [valueCells, List.mem_append, List.mem_cons, List.mem_singleton,
          List.mem_map, List.not_mem_nil, or_false] at h
        rcases h with (h | h) | ⟨k, -, h⟩
        · rw [h]
        · rw [h]
        · rw [← h]
      omega
    · have := ih (i0 + 1) h
      omega

theorem col_passCells (as : List (AtomicSequence α)) (t : α) (offset : Int) (c : Cell α)
    (hc : c ∈ passCells as t offset) : offset < c.col := by
  induction as generalizing t offset with
  | nil => simp [passCells] at hc
  | cons a rest ih =>
    rw [passCells] at hc
    rcases List.mem_append.mp hc with h | h
    · have := col_sampleLoop a false t offset a.m_tpoi 0 c h
      omega
    · have := ih _ _ h
      have hn : (0 : Int) ≤ atomNumOfTPOIs a := Int.natCast_nonneg _
      omega

theorem col_repCells (as : List (AtomicSequence α)) (R : Nat) (t : α) (offset : Int) (c : Cell α)
    (hc : c ∈ repCells as R t offset) : offset < c.col := by
  induction R generalizing t offset with
  | zero => simp [repCells] at hc
  | succ R ih =>
    rw [repCells] at hc
    rcases List.mem_append.mp hc with h | h
    · exact col_passCells as t offset c h
    · have := ih _ _ h
      have hn : (0 : Int) ≤ (totalTPOIs as : Int) := Int.natCast_nonneg _
      omega

/-- C18. Flattening of a flat Concatenation: for a Concatenation with `R` repetitions whose
children are the Atomic blocks `as` (durations `d_1..d_k`, TPOI counts `n_1..n_k`,
`D = totalDuration as`, `M = totalTPOIs as`), `CollectSeqData` started at `(t, offset)` with
`offset >= 0` appends assignments to the sample matrix such that TPOI `i` of child `j` in
repetition `r` (all 0-based) is written to column
`offset + r*M + (n_1 + ... + n_{j-1}) + i + 1`, with the time row (row 0) holding
`t + r*D + (d_1 + ... + d_{j-1}) +` the TPOI's local time and the receiver-phase row (row 1)
holding the TPOI's phase; in each of the rows 0 to 6 the columns assigned are
`offset+1, ..., offset+R*M`, once each and in this order; and column 0 is never assigned. -/
theorem flat_concatenation (as : List (AtomicSequence α)) (R : Nat) (s : SeqState α) (t : α)
    (offset : Int) (hoff : 0 ≤ offset) :
    ∃ new : List (Cell α),
      (CollectSeqData (concat R (as.map atom)) s t offset).seqdata = s.seqdata ++ new ∧
      (∀ (r j i : Nat) (a : AtomicSequence α) (tp : TPOISet α),
        r < R → as[j]? = some a → a.m_tpoi[i]? = some tp →
        ({ row := 0,
           col := offset + (r : Int) * (totalTPOIs as : Int) + (totalTPOIs (as.take j) : Int)
             + (i : Int) + 1,
           val := t + (r : α) * totalDuration as + totalDuration (as.take j) + tp.dtime }
          : Cell α) ∈ new ∧
        ({ row := 1,
           col := offset + (r : Int) * (totalTPOIs as : Int) + (totalTPOIs (as.take j) : Int)
             + (i : Int) + 1,
           val := tp.dphase } : Cell α) ∈ new) ∧
      (∀ row : Nat, row < 7 →
        NDData.columns new row
          = (List.range (R * totalTPOIs as)).map (fun c : Nat => offset + (c : Int) + 1)) ∧
      (∀ c ∈ new, c.col ≠ 0) := by
  refine ⟨repCells as R t offset, ?_, ?_, ?_, ?_⟩
  · rw [CollectSeqData, iterate_atoms]
  · intro r j i a tp hr hj hi
    obtain ⟨h0, h1⟩ := mem_sampleLoop a false
      (t + (r : α) * totalDuration as + totalDuration (as.take j))
      (offset + (r : Int) * (totalTPOIs as : Int) + (totalTPOIs (as.take j) : Int))
      a.m_tpoi 0 i tp hi
    rw [add_zero] at h0 h1
    rw [add_comm tp.dtime] at h0
    have lift : ∀ c : Cell α, c ∈ atomCells a
        (t + (r : α) * totalDuration as + totalDuration (as.take j))
        (offset + (r : Int) * (totalTPOIs as : Int) + (totalTPOIs (as.take j) : Int)) →
        c ∈ repCells as R t offset := by
      intro c hc
      exact mem_repCells as R t offset r hr _ _ rfl rfl c
        (mem_passCells as _ _ j a hj _ _ rfl rfl c hc)
    exact ⟨lift _ h0, lift _ h1⟩
  · intro row hrow
    exact columns_repCells as R t offset row hrow
  · intro c hc
    have := col_repCells as R t offset c hc
    omega

/-- C18 at two repetitions of `nestedAtom` (2 TPOIs) followed by `siblingAtom` (1 TPOI), started
at `t = 0`, `offset = 0` on an empty record: the time row is assigned in columns 1 to 6, once
each. -/
theorem flat_concatenation_witness :
    (CollectSeqData (concat 2 ([nestedAtom, siblingAtom].map atom))
        { seqdata := [], nonLinGrad := fun _ => true } 0 0).seqdata.columns 0
      = [1, 2, 3, 4, 5, 6] := by
  obtain ⟨new, h1, -, h3, -⟩ := flat_concatenation [nestedAtom, siblingAtom] 2
    { seqdata := [], nonLinGrad := fun _ => true } 0 0 (le_refl 0)
  rw [h1, List.nil_append, h3 0 (by decide)]
  simp [totalTPOIs, nestedAtom, siblingAtom, List.range_succ]

end Sequence

end Jemris
